import Mathlib

/-!
Verification of the worldlines ingestion/deduplication pipeline and job
orchestrator against its natural-language specification.

The definitions below are a shallow embedding of the Python source:
  - src/worldlines/ingestion/dedup.py      (text normalization, shingle
    similarity, dedup hash)
  - src/worldlines/ingestion/normalize.py  (validation, normalization,
    ingest_item)
  - src/worldlines/jobs.py                 (stage loops, backlog queries,
    temporal linking, cluster synthesis)
  - src/worldlines/storage/schema.py       (uniqueness constraints)

Database tables are modelled as Lean lists of rows; SQL inserts append,
upserts map over the matching row, and SELECT queries are list filters.
Nondeterministic inputs of the code (uuid4, current time, the external
LLM services) are passed in as explicit parameters.
-/

set_option maxRecDepth 100000

namespace Worldlines

/-! ## Text normalization (dedup.py `_normalize_text`)

Python's `re.sub(r"\s+", " ", text)` and `str.strip()` both use the same
whitespace set; `isPySpace` enumerates exactly the characters Python's
`\s` matches on `str` inputs.  Note the NUL character `U+0000` is NOT in
this set. -/

/-- The set of characters Python treats as whitespace (`\s`, `str.strip`). -/
def isPySpace (c : Char) : Bool :=
  c.toNat == 0x09 || c.toNat == 0x0A || c.toNat == 0x0B || c.toNat == 0x0C ||
  c.toNat == 0x0D || c.toNat == 0x1C || c.toNat == 0x1D || c.toNat == 0x1E ||
  c.toNat == 0x1F || c.toNat == 0x20 || c.toNat == 0x85 || c.toNat == 0xA0 ||
  c.toNat == 0x1680 || (0x2000 ≤ c.toNat && c.toNat ≤ 0x200A) ||
  c.toNat == 0x2028 || c.toNat == 0x2029 || c.toNat == 0x202F ||
  c.toNat == 0x205F || c.toNat == 0x3000

/-- Unicode NFC normalization step of `_normalize_text`.  Modelled as the
identity: every string considered in this development is already in NFC
normal form (NFC is the identity on all ASCII strings and on strings
containing no combining sequences), and no claim settled here depends on
a non-trivial recomposition. -/
def nfcNormalize (s : String) : String := s

/-- Python `str.lower()`, modelled on its ASCII fragment via
`Char.toLower`; no claim settled here depends on non-ASCII case
mappings. -/
def pyLower (s : String) : String := ⟨s.data.map Char.toLower⟩

/-- Squeeze runs of consecutive spaces down to a single space.  Applied
after every whitespace character has been replaced by a space, this is
Python's `re.sub(r"\s+", " ", text)`. -/
def squeezeSpaces : List Char → List Char
  | [] => []
  | [c] => [c]
  | a :: b :: rest =>
    if a = ' ' ∧ b = ' ' then squeezeSpaces (b :: rest)
    else a :: squeezeSpaces (b :: rest)

/-- Python `str.strip()`: drop leading and trailing whitespace. -/
def pyStrip (l : List Char) : List Char :=
  ((l.dropWhile isPySpace).reverse.dropWhile isPySpace).reverse

/-- dedup.py `_normalize_text`: NFC, lowercase, collapse whitespace runs
to single spaces, strip. -/
def normalize_text (s : String) : String :=
  ⟨pyStrip (squeezeSpaces (((pyLower (nfcNormalize s)).data).map
    (fun c => if isPySpace c then ' ' else c)))⟩

/-! ## Title shingle similarity (dedup.py `compute_title_shingle_similarity`) -/

/-- All character n-grams of a list: the substrings of length `n`
starting at positions `0 .. length - n`. -/
def ngrams (n : Nat) (l : List Char) : List (List Char) :=
  (List.range (l.length - n + 1)).map (fun i => (l.drop i).take n)

/-- The `_shingles` helper: the set of character n-grams of the
normalized title; a nonempty title shorter than `n` collapses to the
single shingle holding the whole normalized title; an empty normalized
title yields the empty set. -/
def shingleSet (n : Nat) (title : String) : Finset String :=
  let normalized := normalize_text title
  if normalized.data.length < n then
    if normalized = "" then (∅ : Finset String) else {normalized}
  else
    ((ngrams n normalized.data).map (fun l => (⟨l⟩ : String))).toFinset

/-- dedup.py `compute_title_shingle_similarity`: Jaccard similarity of
the two shingle sets, with 0 when either set is empty.  The Python float
division `intersection / union` of the two cardinalities is modelled as
exact rational division, written `mkRat` for kernel computability;
`compute_title_shingle_similarity_eq_div` below shows it is the rational
division of the two cardinalities. -/
def compute_title_shingle_similarity (title1 title2 : String) (n : Nat := 4) : ℚ :=
  if shingleSet n title1 = ∅ ∨ shingleSet n title2 = ∅ then 0
  else mkRat (shingleSet n title1 ∩ shingleSet n title2).card
    (shingleSet n title1 ∪ shingleSet n title2).card

theorem compute_title_shingle_similarity_eq_div (title1 title2 : String) (n : Nat)
    (h1 : shingleSet n title1 ≠ ∅) (h2 : shingleSet n title2 ≠ ∅) :
    compute_title_shingle_similarity title1 title2 n =
      ((shingleSet n title1 ∩ shingleSet n title2).card : ℚ) /
        ((shingleSet n title1 ∪ shingleSet n title2).card : ℚ) := by
  unfold compute_title_shingle_similarity
  rw [if_neg (not_or.mpr ⟨h1, h2⟩), Rat.mkRat_eq_div]
  push_cast
  ring

example : normalize_text "  Hello   WORLD  " = "hello world" := by decide
example : normalize_text "" = "" := by decide
example : compute_title_shingle_similarity "" "" = 0 := by decide
example : compute_title_shingle_similarity "ab" "ab" = 1 := by decide
example : shingleSet 4 "ab" = {("ab" : String)} := by decide

/-! ## SHA-256 (hashlib.sha256(...).hexdigest()) over UTF-8 bytes

Bytes and 32-bit words are `Nat` with explicit reduction `% 2 ^ 32`;
the implementation follows FIPS 180-4 exactly, matching the semantics
of `hashlib.sha256`. -/

/-- Reduce to a 32-bit word. -/
def w32 (x : Nat) : Nat := x % 4294967296

/-- 32-bit right rotation. -/
def rotr32 (n x : Nat) : Nat := w32 ((x >>> n) ||| (x <<< (32 - n)))

/-- The 64 SHA-256 round constants. -/
def shaK : List Nat :=
  [1116352408, 1899447441, 3049323471, 3921009573, 961987163,
   1508970993, 2453635748, 2870763221, 3624381080, 310598401,
   607225278, 1426881987, 1925078388, 2162078206, 2614888103,
   3248222580, 3835390401, 4022224774, 264347078, 604807628,
   770255983, 1249150122, 1555081692, 1996064986, 2554220882,
   2821834349, 2952996808, 3210313671, 3336571891, 3584528711,
   113926993, 338241895, 666307205, 773529912, 1294757372,
   1396182291, 1695183700, 1986661051, 2177026350, 2456956037,
   2730485921, 2820302411, 3259730800, 3345764771, 3516065817,
   3600352804, 4094571909, 275423344, 430227734, 506948616,
   659060556, 883997877, 958139571, 1322822218, 1537002063,
   1747873779, 1955562222, 2024104815, 2227730452, 2361852424,
   2428436474, 2756734187, 3204031479, 3329325298]

/-- The initial SHA-256 hash state. -/
def shaH0 : List Nat :=
  [1779033703, 3144134277, 1013904242, 2773480762, 1359893119,
   2600822924, 528734635, 1541459225]

/-- Split a list into consecutive chunks of size `k + 1` (the final
chunk shorter when the length is not a multiple; the SHA-256 uses below
always chunk exactly). -/
def chunksOf (k : Nat) (l : List Nat) : List (List Nat) :=
  (List.range ((l.length + k) / (k + 1))).map (fun i => (l.drop (i * (k + 1))).take (k + 1))

/-- Big-endian word from a list of bytes. -/
def wordFromBytesBE (bs : List Nat) : Nat := bs.foldl (fun acc b => acc * 256 + b) 0

/-- The `k` big-endian bytes of `v`. -/
def natToBytesBE : Nat → Nat → List Nat
  | 0, _ => []
  | k + 1, v => natToBytesBE k (v / 256) ++ [v % 256]

/-- Extend the 16 initial message-schedule words to 64. -/
def shaSchedule (w16 : List Nat) : List Nat :=
  (List.range 48).foldl (fun ws _ =>
    let i := ws.length
    let x := ws.getD (i - 15) 0
    let y := ws.getD (i - 2) 0
    let s0 := rotr32 7 x ^^^ rotr32 18 x ^^^ (x >>> 3)
    let s1 := rotr32 17 y ^^^ rotr32 19 y ^^^ (y >>> 10)
    ws ++ [w32 (ws.getD (i - 16) 0 + s0 + ws.getD (i - 7) 0 + s1)]) w16

/-- One SHA-256 compression round; the state is the 8 words a..h. -/
def shaCompressStep (st : List Nat) (kw : Nat × Nat) : List Nat :=
  let a := st.getD 0 0
  let b := st.getD 1 0
  let c := st.getD 2 0
  let d := st.getD 3 0
  let e := st.getD 4 0
  let f := st.getD 5 0
  let g := st.getD 6 0
  let h := st.getD 7 0
  let bigS1 := rotr32 6 e ^^^ rotr32 11 e ^^^ rotr32 25 e
  let ch := (e &&& f) ^^^ ((4294967295 ^^^ e) &&& g)
  let t1 := w32 (h + bigS1 + ch + kw.1 + kw.2)
  let bigS0 := rotr32 2 a ^^^ rotr32 13 a ^^^ rotr32 22 a
  let mj := (a &&& b) ^^^ (a &&& c) ^^^ (b &&& c)
  let t2 := w32 (bigS0 + mj)
  [w32 (t1 + t2), a, b, c, w32 (d + t1), e, f, g]

/-- Compress one 64-byte block into the running hash state. -/
def shaCompressBlock (hs : List Nat) (block : List Nat) : List Nat :=
  let w := shaSchedule ((chunksOf 3 block).map wordFromBytesBE)
  let fin := (shaK.zip w).foldl shaCompressStep hs
  List.zipWith (fun x y => w32 (x + y)) hs fin

/-- SHA-256 of a byte list: pad to a multiple of 64 bytes with `0x80`,
zeros and the 64-bit big-endian bit length, then compress each block. -/
def sha256Bytes (msg : List Nat) : List Nat :=
  let padded := msg ++ [0x80] ++ List.replicate ((119 - msg.length % 64) % 64) 0 ++
    natToBytesBE 8 (msg.length * 8)
  (((chunksOf 63 padded).foldl shaCompressBlock shaH0).map (natToBytesBE 4)).flatten

/-- Lowercase hex digit. -/
def hexDigit (n : Nat) : Char := Char.ofNat (if n < 10 then 48 + n else 87 + n)

/-- Lowercase hex encoding of a byte list (`.hexdigest()`). -/
def bytesToHex (bs : List Nat) : String :=
  ⟨(bs.map (fun b => [hexDigit (b / 16), hexDigit (b % 16)])).flatten⟩

/-- UTF-8 encoding of one character (`str.encode("utf-8")`). -/
def utf8EncodeChar (c : Char) : List Nat :=
  let n := c.toNat
  if n < 0x80 then [n]
  else if n < 0x800 then [0xC0 + n / 64, 0x80 + n % 64]
  else if n < 0x10000 then [0xE0 + n / 4096, 0x80 + n / 64 % 64, 0x80 + n % 64]
  else [0xF0 + n / 262144, 0x80 + n / 4096 % 64, 0x80 + n / 64 % 64, 0x80 + n % 64]

/-- UTF-8 encoding of a string. -/
def utf8Encode (s : String) : List Nat := (s.data.map utf8EncodeChar).flatten

/-- The hex digest of the UTF-8 encoding of a string. -/
def sha256HexOfString (s : String) : String := bytesToHex (sha256Bytes (utf8Encode s))

/-! ## Dedup hash (dedup.py `compute_dedup_hash`) -/

/-- The string hashed by `compute_dedup_hash`: the three normalized
fields joined with the NUL separator byte,
`"\x00".flatten([_normalize_text(title), _normalize_text(source_name), _normalize_text(content)])`. -/
def dedupCombined (title source_name content : String) : String :=
  normalize_text title ++ "\x00" ++ normalize_text source_name ++ "\x00" ++
    normalize_text content

/-- dedup.py `compute_dedup_hash`: SHA-256 hex digest of the UTF-8
encoding of the joined normalized fields. -/
def compute_dedup_hash (title source_name content : String) : String :=
  sha256HexOfString (dedupCombined title source_name content)

example :
    sha256HexOfString "abc" =
      "ba7816bf8f01cfea414140de5dae2223b00361a396177a9cb410ff61f20015ad" := by decide

example :
    sha256HexOfString "" =
      "e3b0c44298fc1c149afbf4c8996fb92427ae41e4649b934ca495991b7852b855" := by decide

/-! ## Supporting lemmas for the dedup-engine claims -/

theorem shingleSet_of_short (n : Nat) (a : String) (hne : normalize_text a ≠ "")
    (hlt : (normalize_text a).data.length < n) :
    shingleSet n a = {normalize_text a} := by
  simp only [shingleSet]
  rw [if_pos hlt, if_neg hne]

theorem shingleSet_of_normalized_empty (a : String) (h : normalize_text a = "") :
    shingleSet 4 a = ∅ := by
  simp [shingleSet, h]

/-- Splitting at a separator character occurring in neither prefix is
unambiguous. -/
theorem nul_split (sep : Char) :
    ∀ (a1 a2 r1 r2 : List Char), sep ∉ a1 → sep ∉ a2 →
      a1 ++ sep :: r1 = a2 ++ sep :: r2 → a1 = a2 ∧ r1 = r2 := by
  intro a1
  induction a1 with
  | nil =>
    intro a2 r1 r2 _ h2 heq
    cases a2 with
    | nil => simpa using heq
    | cons c a2' =>
      simp only [List.nil_append, List.cons_append, List.cons.injEq] at heq
      exact absurd (heq.1 ▸ List.mem_cons_self c a2') h2
  | cons c a1' ih =>
    intro a2 r1 r2 h1 h2 heq
    cases a2 with
    | nil =>
      simp only [List.nil_append, List.cons_append, List.cons.injEq] at heq
      exact absurd (heq.1.symm ▸ List.mem_cons_self c a1') h1
    | cons d a2' =>
      simp only [List.cons_append, List.cons.injEq] at heq
      have h1' : sep ∉ a1' := fun hm => h1 (List.mem_cons_of_mem c hm)
      have h2' : sep ∉ a2' := fun hm => h2 (List.mem_cons_of_mem d hm)
      obtain ⟨he, hr⟩ := ih a2' r1 r2 h1' h2' heq.2
      exact ⟨by rw [heq.1, he], hr⟩

theorem data_dedupCombined (t s c : String) :
    (dedupCombined t s c).data =
      (normalize_text t).data ++ '\x00' :: ((normalize_text s).data ++
        '\x00' :: (normalize_text c).data) := by
  simp [dedupCombined, String.data_append]

/-- Injectivity of the NUL-joined encoding on NUL-free normalized
fields. -/
theorem dedupCombined_inj (t1 s1 c1 t2 s2 c2 : String)
    (ht1 : '\x00' ∉ (normalize_text t1).data) (hs1 : '\x00' ∉ (normalize_text s1).data)
    (ht2 : '\x00' ∉ (normalize_text t2).data) (hs2 : '\x00' ∉ (normalize_text s2).data)
    (heq : dedupCombined t1 s1 c1 = dedupCombined t2 s2 c2) :
    normalize_text t1 = normalize_text t2 ∧ normalize_text s1 = normalize_text s2 ∧
      normalize_text c1 = normalize_text c2 := by
  have hdata := congrArg String.data heq
  rw [data_dedupCombined, data_dedupCombined] at hdata
  obtain ⟨het, hrest⟩ := nul_split '\x00' _ _ _ _ ht1 ht2 hdata
  obtain ⟨hes, hec⟩ := nul_split '\x00' _ _ _ _ hs1 hs2 hrest
  exact ⟨String.ext het, String.ext hes, String.ext hec⟩

/-! ## Claims C5 and C9 -/

/-- C5 (counterexample): the separator byte CAN appear in normalized
text, because `_normalize_text` does not remove the NUL character (it is
not whitespace).  The triples `("a\x00b", "x", "y")` and
`("a", "b\x00x", "y")` differ in every field after normalization, yet
their joined strings — and therefore their fingerprints — coincide. -/
theorem C5_counterexample :
    normalize_text "a\x00b" ≠ normalize_text "a" ∧
    normalize_text "x" ≠ normalize_text "b\x00x" ∧
    dedupCombined "a\x00b" "x" "y" = dedupCombined "a" "b\x00x" "y" ∧
    compute_dedup_hash "a\x00b" "x" "y" = compute_dedup_hash "a" "b\x00x" "y" := by
  refine ⟨by decide, by decide, by decide, ?_⟩
  exact congrArg sha256HexOfString (by decide)

/-- C5 (amended): for triples whose normalized fields are free of the
NUL separator byte, any difference in some normalized field changes the
joined pre-hash string, so there is no field-boundary ambiguity; in
particular the fingerprints of `("ab","cd","ef")` and `("abcd","","ef")`
differ. -/
theorem C5_fingerprint_boundary :
    (∀ t1 s1 c1 t2 s2 c2 : String,
      '\x00' ∉ (normalize_text t1).data → '\x00' ∉ (normalize_text s1).data →
      '\x00' ∉ (normalize_text t2).data → '\x00' ∉ (normalize_text s2).data →
      (normalize_text t1 ≠ normalize_text t2 ∨ normalize_text s1 ≠ normalize_text s2 ∨
        normalize_text c1 ≠ normalize_text c2) →
      dedupCombined t1 s1 c1 ≠ dedupCombined t2 s2 c2) ∧
    compute_dedup_hash "ab" "cd" "ef" ≠ compute_dedup_hash "abcd" "" "ef" := by
  constructor
  · intro t1 s1 c1 t2 s2 c2 ht1 hs1 ht2 hs2 hdiff heq
    obtain ⟨he1, he2, he3⟩ := dedupCombined_inj t1 s1 c1 t2 s2 c2 ht1 hs1 ht2 hs2 heq
    rcases hdiff with h | h | h
    · exact h he1
    · exact h he2
    · exact h he3
  · decide

/-- C5 witness: the amended injectivity statement applied at the
concrete triples `("x","y","z")` and `("xy","","z")`. -/
theorem C5_witness :
    '\x00' ∉ (normalize_text "x").data ∧ '\x00' ∉ (normalize_text "y").data ∧
    '\x00' ∉ (normalize_text "xy").data ∧ '\x00' ∉ (normalize_text "").data ∧
    normalize_text "x" ≠ normalize_text "xy" ∧
    dedupCombined "x" "y" "z" ≠ dedupCombined "xy" "" "z" :=
  ⟨by decide, by decide, by decide, by decide, by decide,
    C5_fingerprint_boundary.1 "x" "y" "z" "xy" "" "z" (by decide) (by decide)
      (by decide) (by decide) (Or.inl (by decide))⟩

/-- C9: `compute_title_shingle_similarity` always lies in `[0, 1]`; a
title whose normalized form is nonempty but shorter than `n` collapses
to the single shingle holding the whole normalized title; and with the
default `n = 4`, if either input normalizes to the empty string the
result is `0` (also when both do). -/
theorem C9_title_similarity (a b : String) (n : Nat) :
    (0 ≤ compute_title_shingle_similarity a b n ∧
      compute_title_shingle_similarity a b n ≤ 1) ∧
    (normalize_text a ≠ "" → (normalize_text a).data.length < n →
      shingleSet n a = {normalize_text a}) ∧
    (normalize_text a = "" ∨ normalize_text b = "" →
      compute_title_shingle_similarity a b 4 = 0) := by
  refine ⟨?_, fun hne hlt => shingleSet_of_short n a hne hlt, fun h => ?_⟩
  · by_cases hc : shingleSet n a = ∅ ∨ shingleSet n b = ∅
    · unfold compute_title_shingle_similarity
      rw [if_pos hc]
      norm_num
    · push_neg at hc
      rw [compute_title_shingle_similarity_eq_div a b n hc.1 hc.2]
      have hsub : shingleSet n a ∩ shingleSet n b ⊆ shingleSet n a ∪ shingleSet n b :=
        Finset.inter_subset_union
      have hune : (shingleSet n a ∪ shingleSet n b).Nonempty :=
        Finset.Nonempty.mono Finset.subset_union_left
          (Finset.nonempty_iff_ne_empty.mpr hc.1)
      have hupos : (0 : ℚ) < (shingleSet n a ∪ shingleSet n b).card := by
        exact_mod_cast Finset.card_pos.mpr hune
      constructor
      · positivity
      · rw [div_le_one hupos]
        exact_mod_cast Finset.card_le_card hsub
  · have hemp : shingleSet 4 a = ∅ ∨ shingleSet 4 b = ∅ := by
      rcases h with h | h
      · exact Or.inl (shingleSet_of_normalized_empty a h)
      · exact Or.inr (shingleSet_of_normalized_empty b h)
    unfold compute_title_shingle_similarity
    rw [if_pos hemp]

/-- C9 witness: applied at `a = "ab"`, `b = ""`, `n = 4`; the short
nonempty title collapses to one shingle and the empty title forces
similarity `0`. -/
theorem C9_witness :
    (normalize_text "ab" ≠ "" ∧ (normalize_text "ab").data.length < 4 ∧
      shingleSet 4 "ab" = {normalize_text "ab"}) ∧
    (normalize_text "" = "" ∧ compute_title_shingle_similarity "ab" "" 4 = 0) ∧
    0 ≤ compute_title_shingle_similarity "ab" "" 4 :=
  ⟨⟨by decide, by decide,
      (C9_title_similarity "ab" "" 4).2.1 (by decide) (by decide)⟩,
    ⟨by decide, (C9_title_similarity "ab" "" 4).2.2 (Or.inr (by decide))⟩,
    (C9_title_similarity "ab" "" 4).1.1⟩

/-! ## Normalization and ingestion (normalize.py)

The items store and the deduplication records are lists of rows; an SQL
INSERT appends.  The nondeterministic inputs of the code are packaged in
`IngestCtx`: `isoOk` models `datetime.fromisoformat` succeeding (the
published_at validity check, never exercised by the claims settled here,
which all use `published_at = none`), `freshId` models `uuid.uuid4()`
and `now` models `datetime.now(timezone.utc).isoformat()`. -/

/-- normalize.py `VALID_SOURCE_TYPES`. -/
def VALID_SOURCE_TYPES : List String :=
  ["news", "filing", "transcript", "report",
   "research", "government", "policy", "industry", "other"]

/-- Raw item emitted by a source adapter. -/
structure RawSourceItem where
  source_name : String
  source_type : String
  title : String
  content : String
  url : Option String := none
  published_at : Option String := none
deriving DecidableEq

/-- Canonical internal representation of an ingested item. -/
structure NormalizedItem where
  id : String
  title : String
  source_name : String
  source_type : String
  timestamp : String
  content : String
  canonical_link : Option String
  ingested_at : String
  dedup_hash : String
deriving DecidableEq

/-- Python `str.strip()` on a string. -/
def pyStripStr (s : String) : String := ⟨pyStrip s.data⟩

/-- Lexicographic code-point comparison of character lists; the order
SQLite's default BINARY collation gives on the (valid UTF-8) TEXT
columns compared below, and the order Python compares `str` by. -/
def charListLe : List Char → List Char → Bool
  | [], _ => true
  | _ :: _, [] => false
  | a :: as, b :: bs =>
    if a.toNat < b.toNat then true
    else if b.toNat < a.toNat then false
    else charListLe as bs

/-- Boolean string comparison used for ORDER BY / range conditions. -/
def strLeB (s t : String) : Bool := charListLe s.data t.data

/-- Insert into a sorted list, before the first element it compares
le-to (stable). -/
def insertLe (le : α → α → Bool) (x : α) : List α → List α
  | [] => [x]
  | y :: ys => if le x y then x :: y :: ys else y :: insertLe le x ys

/-- Stable insertion sort by a Boolean comparison: the model of SQL
ORDER BY (and of Python's stable `sorted`). -/
def sortByLe (le : α → α → Bool) : List α → List α
  | [] => []
  | x :: xs => insertLe le x (sortByLe le xs)

theorem mem_insertLe (le : α → α → Bool) (x a : α) (l : List α) :
    a ∈ insertLe le x l ↔ a = x ∨ a ∈ l := by
  induction l with
  | nil => simp [insertLe]
  | cons y ys ih =>
    by_cases h : le x y = true
    · simp [insertLe, h]
    · simp only [insertLe, if_neg h, List.mem_cons, ih]
      tauto

theorem mem_sortByLe (le : α → α → Bool) (a : α) (l : List α) :
    a ∈ sortByLe le l ↔ a ∈ l := by
  induction l with
  | nil => simp [sortByLe]
  | cons x xs ih => simp [sortByLe, mem_insertLe, ih]

/-- The nondeterministic inputs of one `ingest_item` / `normalize`
call. -/
structure IngestCtx where
  isoOk : String → Bool
  freshId : String
  now : String

/-- normalize.py `_validate_raw_item`: the list of validation errors.
Python `not s or not s.strip()` is `s = "" ∨ pyStripStr s = ""`. -/
def _validate_raw_item (isoOk : String → Bool) (raw : RawSourceItem) : List String :=
  (if raw.title = "" ∨ pyStripStr raw.title = ""
    then ["title is required and must be non-empty"] else []) ++
  (if raw.source_name = "" ∨ pyStripStr raw.source_name = ""
    then ["source_name is required and must be non-empty"] else []) ++
  (if raw.source_type = "" ∨ pyStripStr raw.source_type = ""
    then ["source_type is required and must be non-empty"]
    else if raw.source_type ∉ VALID_SOURCE_TYPES
    then ["source_type '" ++ raw.source_type ++ "' is not valid; must be one of: " ++
      "filing, government, industry, news, other, policy, report, research, transcript"]
    else []) ++
  (if raw.content = "" ∨ pyStripStr raw.content = ""
    then ["content is required and must be non-empty"] else []) ++
  (match raw.published_at with
   | none => []
   | some p => if isoOk p then []
      else ["published_at '" ++ p ++ "' is not valid ISO 8601"])

/-- The NormalizedItem built by `normalize` when validation passes:
fresh uuid, published_at with ingestion-time fallback, dedup hash. -/
def mkNormalizedItem (ctx : IngestCtx) (raw : RawSourceItem) : NormalizedItem :=
  { id := ctx.freshId
    title := raw.title
    source_name := raw.source_name
    source_type := raw.source_type
    timestamp := raw.published_at.getD ctx.now
    content := raw.content
    canonical_link := raw.url
    ingested_at := ctx.now
    dedup_hash := compute_dedup_hash raw.title raw.source_name raw.content }

/-- normalize.py `normalize`: validate, then build the item; a failed
validation raises ValueError, modelled as `Except.error` with the
message the code formats. -/
def normalize (ctx : IngestCtx) (raw : RawSourceItem) : Except String NormalizedItem :=
  if _validate_raw_item ctx.isoOk raw = []
  then .ok (mkNormalizedItem ctx raw)
  else .error ("Invalid RawSourceItem: " ++
    String.intercalate "; " (_validate_raw_item ctx.isoOk raw))

/-- One row of the deduplication_records table. -/
structure DedupRecord where
  canonical_item_id : String
  duplicate_item_ids : List String
  deduped_at : String
  method : String
deriving DecidableEq

/-- The items store plus its deduplication records. -/
structure ItemsDB where
  items : List NormalizedItem
  dedup_records : List DedupRecord
deriving DecidableEq

/-- Result of the normalize-and-deduplicate pipeline. -/
structure NormalizationResult where
  status : String
  item : NormalizedItem
  duplicate_of : Option String := none
deriving DecidableEq

/-- normalize.py `ingest_item`.  `window_cutoff` stands for the ISO
timestamp `now - similarity_window_hours` the code computes (opaque time
arithmetic); the SQL `ORDER BY ingested_at DESC LIMIT 200` is a stable
descending sort followed by `take 200`. -/
def ingest_item (ctx : IngestCtx) (raw : RawSourceItem) (db : ItemsDB)
    (similarity_threshold : ℚ) (window_cutoff : String) :
    Except String (NormalizationResult × ItemsDB) :=
  match normalize ctx raw with
  | .error e => .error e
  | .ok item =>
    match db.items.find? (fun r => r.dedup_hash == item.dedup_hash) with
    | some existing =>
      .ok ({ status := "duplicate", item := item, duplicate_of := some existing.id },
        { db with dedup_records := db.dedup_records ++
            [⟨existing.id, [item.id], ctx.now, "hash_exact"⟩] })
    | none =>
      if 0 < similarity_threshold then
        let recent := (sortByLe (fun x y => strLeB y.ingested_at x.ingested_at)
            (db.items.filter (fun r => strLeB window_cutoff r.ingested_at))).take 200
        match recent.find? (fun r =>
            similarity_threshold ≤ compute_title_shingle_similarity item.title r.title 4) with
        | some c =>
          .ok ({ status := "duplicate", item := item, duplicate_of := some c.id },
            { db with dedup_records := db.dedup_records ++
                [⟨c.id, [item.id], ctx.now, "content_similarity"⟩] })
        | none =>
          .ok ({ status := "new", item := item }, { db with items := db.items ++ [item] })
      else
        .ok ({ status := "new", item := item }, { db with items := db.items ++ [item] })

/-! ## Claims C10 and C1 -/

theorem pyStripStr_of_all_space (s : String) (h : s.data.all isPySpace) :
    pyStripStr s = "" := by
  have hd : s.data.dropWhile isPySpace = [] :=
    List.dropWhile_eq_nil_iff.mpr (by simpa [List.all_eq_true] using h)
  simp [pyStripStr, pyStrip, hd]

/-- C10: a nonempty but whitespace-only `title`, `source_name`,
`source_type` or `content` is rejected by validation with the same
required-field error as an empty field, makes `normalize` raise, and
makes `ingest_item` propagate the error. -/
theorem C10_whitespace_validation (ctx : IngestCtx) (raw : RawSourceItem)
    (db : ItemsDB) (thr : ℚ) (cut : String) :
    (raw.title ≠ "" → raw.title.data.all isPySpace →
      "title is required and must be non-empty" ∈ _validate_raw_item ctx.isoOk raw ∧
      _validate_raw_item ctx.isoOk raw =
        _validate_raw_item ctx.isoOk { raw with title := "" } ∧
      normalize ctx raw = .error ("Invalid RawSourceItem: " ++
        String.intercalate "; " (_validate_raw_item ctx.isoOk raw)) ∧
      ingest_item ctx raw db thr cut = .error ("Invalid RawSourceItem: " ++
        String.intercalate "; " (_validate_raw_item ctx.isoOk raw))) ∧
    (raw.source_name ≠ "" → raw.source_name.data.all isPySpace →
      "source_name is required and must be non-empty" ∈ _validate_raw_item ctx.isoOk raw ∧
      _validate_raw_item ctx.isoOk raw =
        _validate_raw_item ctx.isoOk { raw with source_name := "" } ∧
      normalize ctx raw = .error ("Invalid RawSourceItem: " ++
        String.intercalate "; " (_validate_raw_item ctx.isoOk raw))) ∧
    (raw.source_type ≠ "" → raw.source_type.data.all isPySpace →
      "source_type is required and must be non-empty" ∈ _validate_raw_item ctx.isoOk raw ∧
      _validate_raw_item ctx.isoOk raw =
        _validate_raw_item ctx.isoOk { raw with source_type := "" } ∧
      normalize ctx raw = .error ("Invalid RawSourceItem: " ++
        String.intercalate "; " (_validate_raw_item ctx.isoOk raw))) ∧
    (raw.content ≠ "" → raw.content.data.all isPySpace →
      "content is required and must be non-empty" ∈ _validate_raw_item ctx.isoOk raw ∧
      _validate_raw_item ctx.isoOk raw =
        _validate_raw_item ctx.isoOk { raw with content := "" } ∧
      normalize ctx raw = .error ("Invalid RawSourceItem: " ++
        String.intercalate "; " (_validate_raw_item ctx.isoOk raw))) := by
  refine ⟨fun _ hall => ?_, fun _ hall => ?_, fun _ hall => ?_, fun _ hall => ?_⟩
  · have hstrip := pyStripStr_of_all_space raw.title hall
    have hmem : "title is required and must be non-empty" ∈
        _validate_raw_item ctx.isoOk raw := by
      simp [_validate_raw_item, hstrip]
    have hvne := List.ne_nil_of_mem hmem
    have hnorm : normalize ctx raw = .error ("Invalid RawSourceItem: " ++
        String.intercalate "; " (_validate_raw_item ctx.isoOk raw)) := by
      simp [normalize, hvne]
    refine ⟨hmem, by simp [_validate_raw_item, hstrip], hnorm, ?_⟩
    simp [ingest_item, hnorm]
  · have hstrip := pyStripStr_of_all_space raw.source_name hall
    have hmem : "source_name is required and must be non-empty" ∈
        _validate_raw_item ctx.isoOk raw := by
      simp [_validate_raw_item, hstrip]
    have hvne := List.ne_nil_of_mem hmem
    exact ⟨hmem, by simp [_validate_raw_item, hstrip], by simp [normalize, hvne]⟩
  · have hstrip := pyStripStr_of_all_space raw.source_type hall
    have hmem : "source_type is required and must be non-empty" ∈
        _validate_raw_item ctx.isoOk raw := by
      simp [_validate_raw_item, hstrip]
    have hvne := List.ne_nil_of_mem hmem
    exact ⟨hmem, by simp [_validate_raw_item, hstrip], by simp [normalize, hvne]⟩
  · have hstrip := pyStripStr_of_all_space raw.content hall
    have hmem : "content is required and must be non-empty" ∈
        _validate_raw_item ctx.isoOk raw := by
      simp [_validate_raw_item, hstrip]
    have hvne := List.ne_nil_of_mem hmem
    exact ⟨hmem, by simp [_validate_raw_item, hstrip], by simp [normalize, hvne]⟩

/-- C10 witness: the whitespace-only title `" "` on an otherwise valid
raw item is rejected exactly like an empty title. -/
theorem C10_witness :
    (" " : String) ≠ "" ∧ (" " : String).data.all isPySpace ∧
    ("title is required and must be non-empty" ∈
      _validate_raw_item (fun _ => true)
        { source_name := "s", source_type := "news", title := " ", content := "c" } ∧
    _validate_raw_item (fun _ => true)
        { source_name := "s", source_type := "news", title := " ", content := "c" } =
      _validate_raw_item (fun _ => true)
        { source_name := "s", source_type := "news", title := "", content := "c" } ∧
    normalize ⟨fun _ => true, "id-1", "t0"⟩
        { source_name := "s", source_type := "news", title := " ", content := "c" } =
      .error ("Invalid RawSourceItem: " ++ String.intercalate "; "
        (_validate_raw_item (fun _ => true)
          { source_name := "s", source_type := "news", title := " ", content := "c" })) ∧
    ingest_item ⟨fun _ => true, "id-1", "t0"⟩
        { source_name := "s", source_type := "news", title := " ", content := "c" }
        ⟨[], []⟩ 0 "" =
      .error ("Invalid RawSourceItem: " ++ String.intercalate "; "
        (_validate_raw_item (fun _ => true)
          { source_name := "s", source_type := "news", title := " ", content := "c" }))) :=
  ⟨by decide, by decide,
    (C10_whitespace_validation ⟨fun _ => true, "id-1", "t0"⟩
      { source_name := "s", source_type := "news", title := " ", content := "c" }
      ⟨[], []⟩ 0 "").1 (by decide) (by decide)⟩

/-- C1: ingesting the same logical raw item twice (same title, source
name and content after normalization), starting from a store holding no
item with the same fingerprint: the first call returns status "new" and
appends exactly one row to the items store; the second call returns
status "duplicate" whose duplicate_of is the first item's id, appends
exactly one DeduplicationRecord with method "hash_exact", and leaves the
items store unchanged.  Both calls use the default
`similarity_threshold = 0`. -/
theorem C1_ingest_same_item_twice
    (ctx1 ctx2 : IngestCtx) (raw1 raw2 : RawSourceItem) (db : ItemsDB) (cut1 cut2 : String)
    (hv1 : _validate_raw_item ctx1.isoOk raw1 = [])
    (hv2 : _validate_raw_item ctx2.isoOk raw2 = [])
    (ht : normalize_text raw2.title = normalize_text raw1.title)
    (hs : normalize_text raw2.source_name = normalize_text raw1.source_name)
    (hc : normalize_text raw2.content = normalize_text raw1.content)
    (hno : ∀ r ∈ db.items,
      r.dedup_hash ≠ compute_dedup_hash raw1.title raw1.source_name raw1.content) :
    ingest_item ctx1 raw1 db 0 cut1 =
      .ok ({ status := "new", item := mkNormalizedItem ctx1 raw1 },
        ⟨db.items ++ [mkNormalizedItem ctx1 raw1], db.dedup_records⟩) ∧
    ingest_item ctx2 raw2 ⟨db.items ++ [mkNormalizedItem ctx1 raw1], db.dedup_records⟩ 0 cut2 =
      .ok ({ status := "duplicate", item := mkNormalizedItem ctx2 raw2,
             duplicate_of := some ctx1.freshId },
        ⟨db.items ++ [mkNormalizedItem ctx1 raw1],
          db.dedup_records ++ [⟨ctx1.freshId, [ctx2.freshId], ctx2.now, "hash_exact"⟩]⟩) := by
  have hash_eq : compute_dedup_hash raw2.title raw2.source_name raw2.content =
      compute_dedup_hash raw1.title raw1.source_name raw1.content := by
    unfold compute_dedup_hash dedupCombined
    rw [ht, hs, hc]
  have hn1 : normalize ctx1 raw1 = .ok (mkNormalizedItem ctx1 raw1) := by
    simp [normalize, hv1]
  have hn2 : normalize ctx2 raw2 = .ok (mkNormalizedItem ctx2 raw2) := by
    simp [normalize, hv2]
  have hfind1 : db.items.find?
      (fun r => r.dedup_hash == (mkNormalizedItem ctx1 raw1).dedup_hash) = none := by
    rw [List.find?_eq_none]
    intro x hx
    simpa [mkNormalizedItem] using hno x hx
  have hfind2 : db.items.find?
      (fun r => r.dedup_hash == (mkNormalizedItem ctx2 raw2).dedup_hash) = none := by
    rw [List.find?_eq_none]
    intro x hx
    simpa [mkNormalizedItem, hash_eq] using hno x hx
  constructor
  · simp [ingest_item, hn1, hfind1, lt_irrefl]
  · have hfind1' : List.find?
        (fun r => r.dedup_hash == compute_dedup_hash raw1.title raw1.source_name raw1.content)
        db.items = none := hfind1
    have hfind2' : List.find?
        (fun r => r.dedup_hash == compute_dedup_hash raw2.title raw2.source_name raw2.content)
        db.items = none := hfind2
    simp [ingest_item, hn2, mkNormalizedItem, hfind1', hfind2', hash_eq]

/-- C1 witness: two ingests of the same raw item into an empty store. -/
theorem C1_witness :
    _validate_raw_item (fun _ => true)
      { source_name := "s", source_type := "news", title := "Tt", content := "Cc" } = [] ∧
    ingest_item ⟨fun _ => true, "id-1", "t1"⟩
      { source_name := "s", source_type := "news", title := "Tt", content := "Cc" }
      ⟨[], []⟩ 0 "" =
      .ok ({ status := "new",
             item := mkNormalizedItem ⟨fun _ => true, "id-1", "t1"⟩
               { source_name := "s", source_type := "news", title := "Tt", content := "Cc" } },
        ⟨[mkNormalizedItem ⟨fun _ => true, "id-1", "t1"⟩
            { source_name := "s", source_type := "news", title := "Tt", content := "Cc" }], []⟩) ∧
    ingest_item ⟨fun _ => true, "id-2", "t2"⟩
      { source_name := "s", source_type := "news", title := "Tt", content := "Cc" }
      ⟨[mkNormalizedItem ⟨fun _ => true, "id-1", "t1"⟩
          { source_name := "s", source_type := "news", title := "Tt", content := "Cc" }], []⟩ 0 "" =
      .ok ({ status := "duplicate",
             item := mkNormalizedItem ⟨fun _ => true, "id-2", "t2"⟩
               { source_name := "s", source_type := "news", title := "Tt", content := "Cc" },
             duplicate_of := some "id-1" },
        ⟨[mkNormalizedItem ⟨fun _ => true, "id-1", "t1"⟩
            { source_name := "s", source_type := "news", title := "Tt", content := "Cc" }],
          [⟨"id-1", ["id-2"], "t2", "hash_exact"⟩]⟩) := by
  have h := C1_ingest_same_item_twice ⟨fun _ => true, "id-1", "t1"⟩ ⟨fun _ => true, "id-2", "t2"⟩
    { source_name := "s", source_type := "news", title := "Tt", content := "Cc" }
    { source_name := "s", source_type := "news", title := "Tt", content := "Cc" }
    ⟨[], []⟩ "" ""
    (by decide) (by decide) rfl rfl rfl (by simp)
  exact ⟨by decide, h.1, h.2⟩

/-! ## Stage error records and per-subject loops (jobs.py)

`analysis_errors` and `exposure_errors` have the same shape (primary key
subject id, attempt_count, last_error, last_attempted_at), and
`_record_analysis_error` / `_record_exposure_error` perform the same
`INSERT .. VALUES (.., 1, ..) ON CONFLICT DO UPDATE SET attempt_count =
attempt_count + 1` upsert, so one row type and one upsert model both. -/

/-- One row of analysis_errors / exposure_errors. -/
structure StageErrorRow where
  subject_id : String
  attempt_count : Nat
  last_error : String
  last_attempted_at : String
deriving DecidableEq

/-- jobs.py `_record_analysis_error` / `_record_exposure_error`: upsert
keyed by the subject id — insert with attempt_count 1, or on conflict
increment attempt_count and refresh last_error / last_attempted_at. -/
def recordStageError (subject_id error_msg now : String)
    (tbl : List StageErrorRow) : List StageErrorRow :=
  if tbl.any (fun r => r.subject_id == subject_id) then
    tbl.map (fun r => if r.subject_id = subject_id then
      { r with attempt_count := r.attempt_count + 1,
               last_error := error_msg, last_attempted_at := now }
      else r)
  else tbl ++ [⟨subject_id, 1, error_msg, now⟩]

/-- The attempt_count stored for a subject, if any. -/
def lookupAttempt (tbl : List StageErrorRow) (subject_id : String) : Option Nat :=
  (tbl.find? (fun r => r.subject_id == subject_id)).map (fun r => r.attempt_count)

theorem lookupAttempt_recordStageError_self (sid msg now : String)
    (tbl : List StageErrorRow) :
    lookupAttempt (recordStageError sid msg now tbl) sid =
      some ((lookupAttempt tbl sid).getD 0 + 1) := by
  unfold recordStageError
  by_cases hany : tbl.any (fun r => r.subject_id == sid) = true
  · rw [if_pos hany]
    induction tbl with
    | nil => simp at hany
    | cons r rs ih =>
      by_cases hr : r.subject_id = sid
      · simp [lookupAttempt, hr]
      · have hany' : rs.any (fun r => r.subject_id == sid) = true := by
          simpa [List.any_cons, hr] using hany
        simpa [lookupAttempt, hr] using ih hany'
  · rw [if_neg hany]
    have hnone : lookupAttempt tbl sid = none := by
      unfold lookupAttempt
      rw [List.find?_eq_none.mpr]
      · rfl
      · intro x hx
        simp only [List.any_eq_true] at hany
        push_neg at hany
        exact hany x hx
    unfold lookupAttempt at hnone ⊢
    rw [List.find?_append]
    simp only [Option.map_eq_none'] at hnone
    simp [hnone]

theorem lookupAttempt_recordStageError_other (sid sid' msg now : String)
    (tbl : List StageErrorRow) (hne : sid' ≠ sid) :
    lookupAttempt (recordStageError sid msg now tbl) sid' = lookupAttempt tbl sid' := by
  unfold recordStageError
  by_cases hany : tbl.any (fun r => r.subject_id == sid) = true
  · rw [if_pos hany]
    unfold lookupAttempt
    rw [List.find?_map]
    have hpf : ((fun r : StageErrorRow => r.subject_id == sid') ∘
        (fun r => if r.subject_id = sid then
          { r with attempt_count := r.attempt_count + 1,
                   last_error := msg, last_attempted_at := now }
          else r)) = (fun r : StageErrorRow => r.subject_id == sid') := by
      funext r
      by_cases hr : r.subject_id = sid <;> simp [hr]
    rw [hpf]
    cases hf : List.find? (fun r => r.subject_id == sid') tbl with
    | none => rfl
    | some r0 =>
      have hr0' : r0.subject_id = sid' := by simpa using List.find?_some hf
      have hr0 : ¬ r0.subject_id = sid := fun h => hne (hr0' ▸ h)
      simp [hr0]
  · rw [if_neg hany]
    unfold lookupAttempt
    rw [List.find?_append]
    have hsingle : List.find? (fun r => r.subject_id == sid')
        [(⟨sid, 1, msg, now⟩ : StageErrorRow)] = none := by
      simp [Ne.symm hne]
    simp [hsingle]

/-- The outcome of one `classify_item` call for one item:  a result
without error, a result carrying a typed error `code`/`message`, or a
raised exception. -/
inductive ClassifyOutcome where
  | ok
  | err (code message : String)
  | exn
deriving DecidableEq

/-- What one run of the run_analysis per-item loop produces: the final
analysis_errors table, the item ids examined before the loop ended, and
the analyzed / errors counters. -/
structure AnalysisLoopResult where
  table : List StageErrorRow
  visited : List String
  analyzed : Nat
  errors : Nat
deriving DecidableEq

/-- The per-item loop of jobs.py `run_analysis` (lines 177-212): on a
typed error, count it, record it via the upsert unless the code is the
transient "api_error", and break out of the loop when it is; on an
exception record "unexpected error" and continue; on success count
analyzed and continue. -/
def analysisLoop (now : String) :
    List (String × ClassifyOutcome) → List StageErrorRow → AnalysisLoopResult
  | [], tbl => ⟨tbl, [], 0, 0⟩
  | (sid, .ok) :: rest, tbl =>
    let r := analysisLoop now rest tbl
    ⟨r.table, sid :: r.visited, r.analyzed + 1, r.errors⟩
  | (sid, .exn) :: rest, tbl =>
    let r := analysisLoop now rest (recordStageError sid "unexpected error" now tbl)
    ⟨r.table, sid :: r.visited, r.analyzed, r.errors + 1⟩
  | (sid, .err code msg) :: rest, tbl =>
    if code = "api_error" then ⟨tbl, [sid], 0, 1⟩
    else
      let r := analysisLoop now rest (recordStageError sid msg now tbl)
      ⟨r.table, sid :: r.visited, r.analyzed, r.errors + 1⟩

/-- The outcome of one `map_exposures` call: a mapped result, a result
with a skipped_reason, a typed error, or a raised exception. -/
inductive ExposureOutcome where
  | mapped
  | skipped
  | err (code message : String)
  | exn
deriving DecidableEq

/-- What one run of the run_exposure_mapping per-subject loop
produces. -/
structure ExposureLoopResult where
  table : List StageErrorRow
  visited : List String
  mapped : Nat
  skipped : Nat
  errors : Nat
deriving DecidableEq

/-- The per-analysis loop of jobs.py `run_exposure_mapping` (lines
402-442): same outcome classification as the analysis loop, with the
extra skipped_reason branch. -/
def exposureLoop (now : String) :
    List (String × ExposureOutcome) → List StageErrorRow → ExposureLoopResult
  | [], tbl => ⟨tbl, [], 0, 0, 0⟩
  | (sid, .mapped) :: rest, tbl =>
    let r := exposureLoop now rest tbl
    ⟨r.table, sid :: r.visited, r.mapped + 1, r.skipped, r.errors⟩
  | (sid, .skipped) :: rest, tbl =>
    let r := exposureLoop now rest tbl
    ⟨r.table, sid :: r.visited, r.mapped, r.skipped + 1, r.errors⟩
  | (sid, .exn) :: rest, tbl =>
    let r := exposureLoop now rest (recordStageError sid "unexpected error" now tbl)
    ⟨r.table, sid :: r.visited, r.mapped, r.skipped, r.errors + 1⟩
  | (sid, .err code msg) :: rest, tbl =>
    if code = "api_error" then ⟨tbl, [sid], 0, 0, 1⟩
    else
      let r := exposureLoop now rest (recordStageError sid msg now tbl)
      ⟨r.table, sid :: r.visited, r.mapped, r.skipped, r.errors + 1⟩

/-! ## Claim C2 -/

/-- C2: in the analysis and exposure per-subject loops, an external
error coded "api_error" leaves the error table (hence every
attempt_count) unchanged and halts the batch — no remaining subject is
visited; any other error code upserts the error record keyed by exactly
that subject id — its attempt_count becomes its previous value plus one
(1 when absent) and every other subject's record is untouched — and the
loop continues with the remaining subjects. -/
theorem C2_stage_error_policy :
    (∀ (now sid m : String) (rest : List (String × ClassifyOutcome))
        (tbl : List StageErrorRow),
      analysisLoop now ((sid, .err "api_error" m) :: rest) tbl = ⟨tbl, [sid], 0, 1⟩) ∧
    (∀ (now sid code m : String) (rest : List (String × ClassifyOutcome))
        (tbl : List StageErrorRow), code ≠ "api_error" →
      analysisLoop now ((sid, .err code m) :: rest) tbl =
        ⟨(analysisLoop now rest (recordStageError sid m now tbl)).table,
          sid :: (analysisLoop now rest (recordStageError sid m now tbl)).visited,
          (analysisLoop now rest (recordStageError sid m now tbl)).analyzed,
          (analysisLoop now rest (recordStageError sid m now tbl)).errors + 1⟩) ∧
    (∀ (now sid m : String) (rest : List (String × ExposureOutcome))
        (tbl : List StageErrorRow),
      exposureLoop now ((sid, .err "api_error" m) :: rest) tbl = ⟨tbl, [sid], 0, 0, 1⟩) ∧
    (∀ (now sid code m : String) (rest : List (String × ExposureOutcome))
        (tbl : List StageErrorRow), code ≠ "api_error" →
      exposureLoop now ((sid, .err code m) :: rest) tbl =
        ⟨(exposureLoop now rest (recordStageError sid m now tbl)).table,
          sid :: (exposureLoop now rest (recordStageError sid m now tbl)).visited,
          (exposureLoop now rest (recordStageError sid m now tbl)).mapped,
          (exposureLoop now rest (recordStageError sid m now tbl)).skipped,
          (exposureLoop now rest (recordStageError sid m now tbl)).errors + 1⟩) ∧
    (∀ (sid msg now : String) (tbl : List StageErrorRow),
      lookupAttempt (recordStageError sid msg now tbl) sid =
        some ((lookupAttempt tbl sid).getD 0 + 1)) ∧
    (∀ (sid sid' msg now : String) (tbl : List StageErrorRow), sid' ≠ sid →
      lookupAttempt (recordStageError sid msg now tbl) sid' = lookupAttempt tbl sid') := by
  refine ⟨fun now sid m rest tbl => ?_, fun now sid code m rest tbl hc => ?_,
    fun now sid m rest tbl => ?_, fun now sid code m rest tbl hc => ?_,
    lookupAttempt_recordStageError_self, lookupAttempt_recordStageError_other⟩
  · simp [analysisLoop]
  · simp [analysisLoop, hc]
  · simp [exposureLoop]
  · simp [exposureLoop, hc]

/-- C2 witness: a concrete batch of three items where the second fails
with a non-transient "parse_error" (incrementing its attempt_count from
absent to 1 and continuing) and where an "api_error" head halts the
batch leaving the table untouched. -/
theorem C2_witness :
    analysisLoop "t0" [("i1", .err "api_error" "down"), ("i2", .ok)] [] =
      ⟨[], ["i1"], 0, 1⟩ ∧
    ("parse_error" : String) ≠ "api_error" ∧
    analysisLoop "t0" [("i2", .err "parse_error" "bad"), ("i3", .ok)] [] =
      ⟨(analysisLoop "t0" [("i3", .ok)] (recordStageError "i2" "bad" "t0" [])).table,
        "i2" :: (analysisLoop "t0" [("i3", .ok)]
          (recordStageError "i2" "bad" "t0" [])).visited,
        (analysisLoop "t0" [("i3", .ok)] (recordStageError "i2" "bad" "t0" [])).analyzed,
        (analysisLoop "t0" [("i3", .ok)]
          (recordStageError "i2" "bad" "t0" [])).errors + 1⟩ ∧
    lookupAttempt (recordStageError "i2" "bad" "t0" []) "i2" =
      some ((lookupAttempt ([] : List StageErrorRow) "i2").getD 0 + 1) ∧
    ("i3" : String) ≠ "i2" ∧
    lookupAttempt (recordStageError "i2" "bad" "t0" []) "i3" =
      lookupAttempt ([] : List StageErrorRow) "i3" :=
  ⟨C2_stage_error_policy.1 "t0" "i1" "down" [("i2", .ok)] [],
    by decide,
    C2_stage_error_policy.2.1 "t0" "i2" "parse_error" "bad" [("i3", .ok)] [] (by decide),
    C2_stage_error_policy.2.2.2.2.1 "i2" "bad" "t0" [],
    by decide,
    C2_stage_error_policy.2.2.2.2.2 "i2" "i3" "bad" "t0" [] (by decide)⟩

/-! ## Backlog queries (jobs.py run_analysis / run_exposure_mapping) -/

/-- One row of the analyses table — the columns the backlog queries
read; the analytic payload columns (dimensions, summary, ...) are
opaque to them and omitted. -/
structure AnalysisRow where
  id : String
  item_id : String
  analyzed_at : String
  eligible_for_exposure_mapping : Bool
deriving DecidableEq

/-- One row of the exposures table (the columns the queries read). -/
structure ExposureRow where
  id : String
  analysis_id : String
  skipped_reason : Option String
deriving DecidableEq

/-- The tables read by the two stage backlog queries. -/
structure StageDB where
  items : List NormalizedItem
  analyses : List AnalysisRow
  analysis_errors : List StageErrorRow
  exposures : List ExposureRow
  exposure_errors : List StageErrorRow
deriving DecidableEq

/-- jobs.py `_MAX_CLASSIFICATION_ATTEMPTS`. -/
def _MAX_CLASSIFICATION_ATTEMPTS : Nat := 3

/-- jobs.py `_MAX_EXPOSURE_ATTEMPTS`. -/
def _MAX_EXPOSURE_ATTEMPTS : Nat := 3

/-- The SQL condition `(ae.attempt_count IS NULL OR ae.attempt_count < ?)`. -/
def retryBudgetOk (tbl : List StageErrorRow) (sid : String) (maxAttempts : Nat) : Bool :=
  match lookupAttempt tbl sid with
  | none => true
  | some c => decide (c < maxAttempts)

theorem retryBudgetOk_eq_true_iff (tbl : List StageErrorRow) (sid : String) (m : Nat) :
    retryBudgetOk tbl sid m = true ↔
      (lookupAttempt tbl sid = none ∨
        ∃ c, lookupAttempt tbl sid = some c ∧ c < m) := by
  cases h : lookupAttempt tbl sid <;> simp [retryBudgetOk, h]

/-- The run_analysis backlog query (jobs.py lines 146-156): items with
no analyses row (`a.id IS NULL` under the LEFT JOIN) and attempt budget
remaining, ordered by ingested_at ascending. -/
def analysisBacklog (db : StageDB) (maxAttempts : Nat) : List NormalizedItem :=
  sortByLe (fun x y => strLeB x.ingested_at y.ingested_at)
    (db.items.filter (fun i =>
      !(db.analyses.any (fun a => a.item_id == i.id)) &&
      retryBudgetOk db.analysis_errors i.id maxAttempts))

/-- The WHERE clause of the run_exposure_mapping backlog query (jobs.py
lines 362-378): eligible analyses, joined to their item, with no
exposures row and attempt budget remaining. -/
def exposureEligible (db : StageDB) (maxAttempts : Nat) (a : AnalysisRow) : Bool :=
  a.eligible_for_exposure_mapping &&
  db.items.any (fun i => i.id == a.item_id) &&
  !(db.exposures.any (fun e => e.analysis_id == a.id)) &&
  retryBudgetOk db.exposure_errors a.id maxAttempts

/-- The run_exposure_mapping backlog query: the eligible analyses
ordered by analyzed_at ascending, capped by
`LIMIT config.exposure_max_per_run`. -/
def exposureBacklog (db : StageDB) (maxAttempts limit : Nat) : List AnalysisRow :=
  (sortByLe (fun x y => strLeB x.analyzed_at y.analyzed_at)
    (db.analyses.filter (exposureEligible db maxAttempts))).take limit

/-- The analysis_errors table after a sequence of later run_analysis
cycles, each given by its timestamp and the classify outcomes of the
items it processes. -/
def runAnalysisCycles (cycles : List (String × List (String × ClassifyOutcome)))
    (tbl : List StageErrorRow) : List StageErrorRow :=
  cycles.foldl (fun t c => (analysisLoop c.1 c.2 t).table) tbl

theorem mem_analysisBacklog_iff (db : StageDB) (maxAttempts : Nat) (i : NormalizedItem) :
    i ∈ analysisBacklog db maxAttempts ↔
      i ∈ db.items ∧ (¬ ∃ a ∈ db.analyses, a.item_id = i.id) ∧
        retryBudgetOk db.analysis_errors i.id maxAttempts = true := by
  unfold analysisBacklog
  rw [mem_sortByLe, List.mem_filter]
  simp [List.any_eq_true]

theorem lookupAttempt_recordStageError_mono (s m n sid : String) (c : Nat)
    (tbl : List StageErrorRow) (h : lookupAttempt tbl sid = some c) :
    ∃ c', lookupAttempt (recordStageError s m n tbl) sid = some c' ∧ c ≤ c' := by
  by_cases hs : sid = s
  · subst hs
    rw [lookupAttempt_recordStageError_self, h]
    exact ⟨c + 1, rfl, Nat.le_succ c⟩
  · rw [lookupAttempt_recordStageError_other s sid m n tbl hs]
    exact ⟨c, h, Nat.le_refl c⟩

theorem analysisLoop_attempt_mono (now : String)
    (xs : List (String × ClassifyOutcome)) (tbl : List StageErrorRow)
    (sid : String) (c : Nat) (h : lookupAttempt tbl sid = some c) :
    ∃ c', lookupAttempt (analysisLoop now xs tbl).table sid = some c' ∧ c ≤ c' := by
  induction xs generalizing tbl c with
  | nil => exact ⟨c, h, Nat.le_refl c⟩
  | cons x rest ih =>
    obtain ⟨s0, o⟩ := x
    cases o with
    | ok =>
      obtain ⟨c', h', hle⟩ := ih tbl c h
      exact ⟨c', by simpa [analysisLoop] using h', hle⟩
    | exn =>
      obtain ⟨c1, h1, hle1⟩ :=
        lookupAttempt_recordStageError_mono s0 "unexpected error" now sid c tbl h
      obtain ⟨c', h', hle'⟩ := ih _ c1 h1
      exact ⟨c', by simpa [analysisLoop] using h', Nat.le_trans hle1 hle'⟩
    | err code m =>
      by_cases hc : code = "api_error"
      · subst hc
        exact ⟨c, by simpa [analysisLoop] using h, Nat.le_refl c⟩
      · obtain ⟨c1, h1, hle1⟩ :=
          lookupAttempt_recordStageError_mono s0 m now sid c tbl h
        obtain ⟨c', h', hle'⟩ := ih _ c1 h1
        exact ⟨c', by simpa [analysisLoop, hc] using h', Nat.le_trans hle1 hle'⟩

theorem runAnalysisCycles_attempt_mono
    (cycles : List (String × List (String × ClassifyOutcome)))
    (tbl : List StageErrorRow) (sid : String) (c : Nat)
    (h : lookupAttempt tbl sid = some c) :
    ∃ c', lookupAttempt (runAnalysisCycles cycles tbl) sid = some c' ∧ c ≤ c' := by
  induction cycles generalizing tbl c with
  | nil => exact ⟨c, h, Nat.le_refl c⟩
  | cons cy rest ih =>
    obtain ⟨c1, h1, hle1⟩ := analysisLoop_attempt_mono cy.1 cy.2 tbl sid c h
    obtain ⟨c', h', hle'⟩ := ih _ c1 h1
    exact ⟨c', by simpa [runAnalysisCycles] using h', Nat.le_trans hle1 hle'⟩

theorem length_insertLe (le : α → α → Bool) (x : α) (l : List α) :
    (insertLe le x l).length = l.length + 1 := by
  induction l with
  | nil => rfl
  | cons y ys ih =>
    by_cases h : le x y = true <;> simp [insertLe, h, ih]

theorem length_sortByLe (le : α → α → Bool) (l : List α) :
    (sortByLe le l).length = l.length := by
  induction l with
  | nil => rfl
  | cons x xs ih => simp [sortByLe, length_insertLe, ih]

/-! ## Claim C3 -/

/-- Concrete rows exhibiting the exposure LIMIT cap. -/
def c3item : NormalizedItem :=
  ⟨"i1", "T", "s", "news", "t1", "C", none, "t1", "h1"⟩

/-- First eligible analysis (earlier analyzed_at). -/
def c3a1 : AnalysisRow := ⟨"a1", "i1", "t1", true⟩

/-- Second eligible analysis (later analyzed_at). -/
def c3a2 : AnalysisRow := ⟨"a2", "i1", "t2", true⟩

/-- The database on which the exposure backlog caps out. -/
def c3db : StageDB := ⟨[c3item], [c3a1, c3a2], [], [], []⟩

/-- C3 (counterexample): with `exposure_max_per_run = 1`, analysis `a2`
has no successful result and no error record, yet the exposure backlog
query does not select it — the LIMIT clause cuts the batch, so the
claimed "if and only if" fails in the "if" direction. -/
theorem C3_counterexample :
    c3a2 ∈ c3db.analyses ∧
    exposureEligible c3db 3 c3a2 = true ∧
    c3db.exposures.any (fun e => e.analysis_id == c3a2.id) = false ∧
    lookupAttempt c3db.exposure_errors c3a2.id = none ∧
    c3a2 ∉ exposureBacklog c3db 3 1 := by decide

/-- C3 (amended): the analysis backlog selects an item iff it has no
analyses row and its retry budget is not exhausted; the exposure
backlog selects only eligible analyses (no exposures row, budget
remaining, eligibility flag, item join) and selects exactly the
eligible ones whenever they number at most `exposure_max_per_run`; a
subject whose attempt_count has reached max_attempts is excluded, and
stays excluded after any sequence of later analysis cycles, since the
upsert only ever increments attempt_count. -/
theorem C3_backlog_query :
    (∀ (db : StageDB) (maxAttempts : Nat) (i : NormalizedItem),
      i ∈ analysisBacklog db maxAttempts ↔
        i ∈ db.items ∧ (¬ ∃ a ∈ db.analyses, a.item_id = i.id) ∧
          (lookupAttempt db.analysis_errors i.id = none ∨
            ∃ c, lookupAttempt db.analysis_errors i.id = some c ∧ c < maxAttempts)) ∧
    (∀ (db : StageDB) (maxAttempts limit : Nat) (a : AnalysisRow),
      a ∈ exposureBacklog db maxAttempts limit →
        a ∈ db.analyses ∧ exposureEligible db maxAttempts a = true) ∧
    (∀ (db : StageDB) (maxAttempts limit : Nat) (a : AnalysisRow),
      (db.analyses.filter (exposureEligible db maxAttempts)).length ≤ limit →
      (a ∈ exposureBacklog db maxAttempts limit ↔
        a ∈ db.analyses ∧ exposureEligible db maxAttempts a = true)) ∧
    (∀ (db : StageDB) (maxAttempts : Nat) (i : NormalizedItem) (c : Nat),
      lookupAttempt db.analysis_errors i.id = some c → maxAttempts ≤ c →
      i ∉ analysisBacklog db maxAttempts) ∧
    (∀ (cycles : List (String × List (String × ClassifyOutcome)))
        (tbl : List StageErrorRow) (db : StageDB) (maxAttempts : Nat)
        (i : NormalizedItem) (c : Nat),
      lookupAttempt tbl i.id = some c → maxAttempts ≤ c →
      db.analysis_errors = runAnalysisCycles cycles tbl →
      i ∉ analysisBacklog db maxAttempts) := by
  have hexcl : ∀ (db : StageDB) (maxAttempts : Nat) (i : NormalizedItem) (c : Nat),
      lookupAttempt db.analysis_errors i.id = some c → maxAttempts ≤ c →
      i ∉ analysisBacklog db maxAttempts := by
    intro db maxAttempts i c hl hc hmem
    obtain ⟨-, -, hb⟩ := (mem_analysisBacklog_iff db maxAttempts i).mp hmem
    rcases (retryBudgetOk_eq_true_iff _ _ _).mp hb with h | ⟨c', hc', hlt⟩
    · rw [hl] at h
      exact Option.noConfusion h
    · rw [hl] at hc'
      obtain rfl : c = c' := Option.some.inj hc'
      exact absurd hlt (Nat.not_lt.mpr hc)
  refine ⟨?_, ?_, ?_, hexcl, ?_⟩
  · intro db maxAttempts i
    rw [mem_analysisBacklog_iff, retryBudgetOk_eq_true_iff]
  · intro db maxAttempts limit a hmem
    have := List.mem_of_mem_take hmem
    rw [mem_sortByLe, List.mem_filter] at this
    exact this
  · intro db maxAttempts limit a hlen
    unfold exposureBacklog
    rw [List.take_of_length_le (by rw [length_sortByLe]; exact hlen),
      mem_sortByLe, List.mem_filter]
  · intro cycles tbl db maxAttempts i c hl hc hdb
    obtain ⟨c', hl', hle⟩ := runAnalysisCycles_attempt_mono cycles tbl i.id c hl
    exact hexcl db maxAttempts i c' (hdb ▸ hl') (Nat.le_trans hc hle)

/-- C3 witness: an item that failed three times is excluded from the
analysis backlog both now and after one further cycle. -/
theorem C3_witness :
    lookupAttempt [(⟨"i1", 3, "bad", "t3"⟩ : StageErrorRow)] "i1" = some 3 ∧
    (3 : Nat) ≤ 3 ∧
    c3item ∉ analysisBacklog ⟨[c3item], [], [⟨"i1", 3, "bad", "t3"⟩], [], []⟩ 3 ∧
    analysisBacklog ⟨[c3item], [], runAnalysisCycles [("t4", [("i9", .err "parse_error" "x")])]
        [⟨"i1", 3, "bad", "t3"⟩], [], []⟩ 3 =
      analysisBacklog ⟨[c3item], [], runAnalysisCycles [("t4", [("i9", .err "parse_error" "x")])]
        [⟨"i1", 3, "bad", "t3"⟩], [], []⟩ 3 ∧
    c3item ∉ analysisBacklog ⟨[c3item], [], runAnalysisCycles
        [("t4", [("i9", .err "parse_error" "x")])] [⟨"i1", 3, "bad", "t3"⟩], [], []⟩ 3 :=
  ⟨by decide, by decide,
    C3_backlog_query.2.2.2.1 ⟨[c3item], [], [⟨"i1", 3, "bad", "t3"⟩], [], []⟩ 3 c3item 3
      (by decide) (by decide),
    rfl,
    C3_backlog_query.2.2.2.2 [("t4", [("i9", .err "parse_error" "x")])]
      [⟨"i1", 3, "bad", "t3"⟩] _ 3 c3item 3 (by decide) (by decide) rfl⟩

/-! ## Ingestion cycle (jobs.py run_ingestion) and claim C4 -/

/-- One entry of the sources config "adapters" list — the keys
run_ingestion reads. -/
structure AdapterCfg where
  type : String
  enabled : Bool
deriving DecidableEq

/-- The observable behavior of one constructed adapter in one cycle:
`configure(adapter_config)` and `fetch()` each either return or
raise. -/
structure AdapterSim where
  configureResult : Except String Unit
  fetchResult : Except String (List RawSourceItem)

/-- The adapter loop of jobs.py `run_ingestion` (lines 71-117): an
unknown adapter type is logged and skipped, a disabled adapter is
skipped; every remaining adapter is constructed, configured and fetched
inside the ONE try/except that wraps the whole loop, so an exception
from configure or fetch unwinds past the remaining adapters to the
top-level handler (which records the error run and alerts).  Returns
the list of adapter types whose fetch completed (whose items were then
ingested) and the exception that ended the cycle, if any. -/
def runIngestionAdapters (getAdapter : String → Option AdapterSim) :
    List AdapterCfg → List String × Option String
  | [] => ([], none)
  | cfg :: rest =>
    match getAdapter cfg.type with
    | none => runIngestionAdapters getAdapter rest
    | some ad =>
      if cfg.enabled = false then runIngestionAdapters getAdapter rest
      else
        match ad.configureResult with
        | .error e => ([], some e)
        | .ok _ =>
          match ad.fetchResult with
          | .error e => ([], some e)
          | .ok _ =>
            let r := runIngestionAdapters getAdapter rest
            (cfg.type :: r.1, r.2)

/-- The adapter registry of the C4 failing input: "rss" raises in
fetch, "hn" fetches fine. -/
def c4get : String → Option AdapterSim := fun t =>
  if t = "rss" then some ⟨.ok (), .error "rss down"⟩
  else if t = "hn" then some ⟨.ok (), .ok []⟩ else none

/-- C4 (code behavior at the failing input): with two enabled adapters
where the first raises in fetch, run_ingestion aborts the whole cycle —
the second adapter never fetches — although the same second adapter
fetches fine when the failing one is absent.  The repo's own test
(test_adapter_failure_continues_to_next_adapter) and the spec require
the second adapter to still run. -/
theorem C4_ingestion_aborts_on_adapter_failure :
    runIngestionAdapters c4get [⟨"rss", true⟩, ⟨"hn", true⟩] = ([], some "rss down") ∧
    "hn" ∉ (runIngestionAdapters c4get [⟨"rss", true⟩, ⟨"hn", true⟩]).1 ∧
    runIngestionAdapters c4get [⟨"hn", true⟩] = (["hn"], none) := by decide

/-! ## Circuit breaker (claim C6)

The functions `_record_source_failure` and `_record_source_success` and
the `source_errors` table are imported from `worldlines.jobs` by
tests/test_jobs.py but are absent from src/, so this part is modelled
from the spec (§4.4 "Circuit breaker (adapters only)" and §3
SourceErrorRecord). -/

/-- Modelled from the spec: one row of the source_errors table —
`adapter_name → consecutive_failures, last_error` (the two timestamp
columns are opaque to the policy). -/
structure SourceErrorRow where
  adapter_name : String
  consecutive_failures : Nat
  last_error : String
deriving DecidableEq

/-- The consecutive-failure counter stored for an adapter (0 when no
row exists). -/
def lookupFailures (tbl : List SourceErrorRow) (a : String) : Nat :=
  ((tbl.find? (fun r => r.adapter_name == a)).map
    (fun r => r.consecutive_failures)).getD 0

/-- Modelled from the spec: `recordFailure(adapter)` increments that
adapter's consecutive-failure counter (inserting a row at 1 when
absent) and returns the new value. -/
def recordFailure (a err : String) (tbl : List SourceErrorRow) :
    Nat × List SourceErrorRow :=
  (lookupFailures tbl a + 1,
   if tbl.any (fun r => r.adapter_name == a) then
     tbl.map (fun r => if r.adapter_name = a
       then ⟨r.adapter_name, lookupFailures tbl a + 1, err⟩ else r)
   else tbl ++ [⟨a, 1, err⟩])

/-- Modelled from the spec: `recordSuccess(adapter)` resets that
adapter's counter to 0 (inserting a zero row when absent, as the tests
expect). -/
def recordSuccess (a : String) (tbl : List SourceErrorRow) : List SourceErrorRow :=
  if tbl.any (fun r => r.adapter_name == a) then
    tbl.map (fun r => if r.adapter_name = a then ⟨r.adapter_name, 0, r.last_error⟩ else r)
  else tbl ++ [⟨a, 0, ""⟩]

/-- One adapter's outcome in one ingestion cycle. -/
inductive SourceEvent where
  | failure
  | success
deriving DecidableEq

/-- Modelled from the spec: fold one adapter's outcomes through the
counter; a failure increments it and fires an alert exactly when the
post-increment value reaches (equals) the threshold; a success resets
it.  Returns one alert flag per event. -/
def alertFlags (threshold : Nat) : List SourceEvent → Nat → List Bool
  | [], _ => []
  | .failure :: rest, count =>
    (count + 1 == threshold) :: alertFlags threshold rest (count + 1)
  | .success :: rest, _ => false :: alertFlags threshold rest 0

theorem lookupFailures_map_cond (a : String) (v : Nat)
    (g : SourceErrorRow → SourceErrorRow)
    (hgn : ∀ r, (g r).adapter_name = r.adapter_name)
    (hgc : ∀ r, (g r).consecutive_failures = v)
    (tbl : List SourceErrorRow)
    (hany : tbl.any (fun r => r.adapter_name == a) = true) :
    lookupFailures (tbl.map (fun r => if r.adapter_name = a then g r else r)) a = v := by
  unfold lookupFailures
  rw [List.find?_map]
  have hpf : ((fun r : SourceErrorRow => r.adapter_name == a) ∘
      (fun r => if r.adapter_name = a then g r else r)) =
      (fun r : SourceErrorRow => r.adapter_name == a) := by
    funext r
    by_cases hr : r.adapter_name = a <;> simp [hr, hgn r]
  rw [hpf]
  rcases hs : List.find? (fun r => r.adapter_name == a) tbl with - | r0
  · exfalso
    rw [List.find?_eq_none] at hs
    simp only [List.any_eq_true] at hany
    obtain ⟨x, hx, hxa⟩ := hany
    exact hs x hx hxa
  · have hr0 : r0.adapter_name = a := by simpa using List.find?_some hs
    simp [hs, hr0, hgc r0]

theorem lookupFailures_append_absent (a : String) (row : SourceErrorRow)
    (tbl : List SourceErrorRow)
    (hany : ¬ tbl.any (fun r => r.adapter_name == a) = true)
    (hrow : row.adapter_name = a) :
    lookupFailures (tbl ++ [row]) a = row.consecutive_failures := by
  have hnone : List.find? (fun r => r.adapter_name == a) tbl = none := by
    rw [List.find?_eq_none]
    intro x hx
    simp only [List.any_eq_true] at hany
    push_neg at hany
    exact hany x hx
  unfold lookupFailures
  rw [List.find?_append]
  simp [hnone, hrow]

theorem lookupFailures_absent (a : String) (tbl : List SourceErrorRow)
    (hany : ¬ tbl.any (fun r => r.adapter_name == a) = true) :
    lookupFailures tbl a = 0 := by
  have hnone : List.find? (fun r => r.adapter_name == a) tbl = none := by
    rw [List.find?_eq_none]
    intro x hx
    simp only [List.any_eq_true] at hany
    push_neg at hany
    exact hany x hx
  simp [lookupFailures, hnone]

theorem lookupFailures_recordFailure (a err : String) (tbl : List SourceErrorRow) :
    lookupFailures (recordFailure a err tbl).2 a = lookupFailures tbl a + 1 := by
  by_cases hany : tbl.any (fun r => r.adapter_name == a) = true
  · show lookupFailures (if tbl.any (fun r => r.adapter_name == a) then _ else _) a = _
    rw [if_pos hany]
    exact lookupFailures_map_cond a (lookupFailures tbl a + 1)
      (fun r => ⟨r.adapter_name, lookupFailures tbl a + 1, err⟩)
      (fun _ => rfl) (fun _ => rfl) tbl hany
  · show lookupFailures (if tbl.any (fun r => r.adapter_name == a) then _ else _) a = _
    rw [if_neg hany, lookupFailures_append_absent a ⟨a, 1, err⟩ tbl hany rfl,
      lookupFailures_absent a tbl hany]

theorem lookupFailures_recordSuccess (a : String) (tbl : List SourceErrorRow) :
    lookupFailures (recordSuccess a tbl) a = 0 := by
  unfold recordSuccess
  by_cases hany : tbl.any (fun r => r.adapter_name == a) = true
  · rw [if_pos hany]
    exact lookupFailures_map_cond a 0
      (fun r => ⟨r.adapter_name, 0, r.last_error⟩)
      (fun _ => rfl) (fun _ => rfl) tbl hany
  · rw [if_neg hany]
    exact lookupFailures_append_absent a ⟨a, 0, ""⟩ tbl hany rfl

/-- C6: `recordFailure` increments the adapter's counter and returns
the new value, `recordSuccess` resets it to 0; over one adapter's event
sequence with threshold 3, three failures alert exactly once — on the
third — further failures past the threshold never alert, and after a
success resets the counter a fresh run of three failures alerts
again. -/
theorem C6_circuit_breaker :
    (∀ (a err : String) (tbl : List SourceErrorRow),
      (recordFailure a err tbl).1 = lookupFailures tbl a + 1) ∧
    (∀ (a err : String) (tbl : List SourceErrorRow),
      lookupFailures (recordFailure a err tbl).2 a = lookupFailures tbl a + 1) ∧
    (∀ (a : String) (tbl : List SourceErrorRow),
      lookupFailures (recordSuccess a tbl) a = 0) ∧
    alertFlags 3 [.failure, .failure, .failure] 0 = [false, false, true] ∧
    alertFlags 3 [.failure, .failure, .failure, .failure, .failure] 0 =
      [false, false, true, false, false] ∧
    alertFlags 3 [.failure, .failure, .failure, .success,
      .failure, .failure, .failure] 0 =
      [false, false, true, false, false, false, true] :=
  ⟨fun _ _ _ => rfl, lookupFailures_recordFailure, lookupFailures_recordSuccess,
    by decide, by decide, by decide⟩

/-! ## Temporal linking (jobs.py run_temporal_linking) -/

/-- One row of the run_temporal_linking query: an item with its
timestamp and change_type, once per ticker named in its exposures. -/
structure EnrichedRow where
  item_id : String
  timestamp : String
  change_type : String
  ticker : String
deriving DecidableEq

/-- One row of the temporal_links table. -/
structure TemporalLink where
  id : String
  source_item_id : String
  target_item_id : String
  link_type : String
  created_at : String
  rationale : String
deriving DecidableEq

/-- jobs.py `_determine_link_type`: same change types reinforce; the
opposing pair reinforcing/friction (in either order) contradicts;
anything else extends. -/
def _determine_link_type (newer_change_type older_change_type : String) : String :=
  if newer_change_type = older_change_type then "reinforces"
  else if (newer_change_type = "reinforcing" ∧ older_change_type = "friction") ∨
      (newer_change_type = "friction" ∧ older_change_type = "reinforcing") then
    "contradicts"
  else "extends"

/-- Append a row to its ticker's group: Python dict semantics —
first-appearance key order, row order preserved within a group. -/
def addRowToGroups (acc : List (String × List EnrichedRow)) (r : EnrichedRow) :
    List (String × List EnrichedRow) :=
  if acc.any (fun p => p.1 == r.ticker) then
    acc.map (fun p => if p.1 = r.ticker then (p.1, p.2 ++ [r]) else p)
  else acc ++ [(r.ticker, [r])]

/-- The `ticker_items` grouping of run_temporal_linking. -/
def groupByTicker (rows : List EnrichedRow) : List (String × List EnrichedRow) :=
  rows.foldl addRowToGroups []

/-- All ordered (newer, older) pairs of a descending-sorted group: each
element paired with every later one. -/
def orderedPairs : List EnrichedRow → List (EnrichedRow × EnrichedRow)
  | [] => []
  | x :: xs => xs.map (fun y => (x, y)) ++ orderedPairs xs

/-- Accumulated data for one unique (source, target) pair: the shared
tickers and the two change types recorded at first encounter. -/
structure PairData where
  source_id : String
  target_id : String
  tickers : List String
  newer_ct : String
  older_ct : String
deriving DecidableEq

/-- Fold one pair into `pair_data`: append the ticker when the pair is
already present, otherwise append a fresh entry. -/
def addPair (acc : List PairData) (ticker : String)
    (p : EnrichedRow × EnrichedRow) : List PairData :=
  if acc.any (fun d => d.source_id == p.1.item_id && d.target_id == p.2.item_id) then
    acc.map (fun d =>
      if d.source_id = p.1.item_id ∧ d.target_id = p.2.item_id
      then { d with tickers := d.tickers ++ [ticker] } else d)
  else acc ++ [⟨p.1.item_id, p.2.item_id, [ticker], p.1.change_type, p.2.change_type⟩]

/-- The `pair_data` accumulation of run_temporal_linking: per ticker
with at least two rows, all ordered pairs of the group sorted
descending by timestamp. -/
def buildPairData (rows : List EnrichedRow) : List PairData :=
  (groupByTicker rows).foldl (fun acc g =>
    if g.2.length < 2 then acc
    else (orderedPairs (sortByLe (fun x y => strLeB y.timestamp x.timestamp) g.2)).foldl
      (fun a p => addPair a g.1 p) acc) []

/-- The link row inserted for one accumulated pair. -/
def mkTemporalLink (linkId now : String) (d : PairData) : TemporalLink :=
  ⟨linkId, d.source_id, d.target_id, _determine_link_type d.newer_ct d.older_ct, now,
    "Shared: " ++ String.intercalate ", " (sortByLe strLeB d.tickers) ++ ". " ++
      d.newer_ct ++ " ↔ " ++ d.older_ct ++ "."⟩

/-- Whether the store already holds an edge for the ordered pair — the
unique index idx_temporal_links_unique_pair of schema.py. -/
def hasPair (store : List TemporalLink) (s t : String) : Bool :=
  store.any (fun l => l.source_item_id == s && l.target_item_id == t)

/-- `INSERT OR IGNORE INTO temporal_links` under the unique pair index:
inserting an already-present (source, target) pair is a no-op, not an
error. -/
def insertLinkOrIgnore (l : TemporalLink) (store : List TemporalLink) :
    List TemporalLink :=
  if hasPair store l.source_item_id l.target_item_id then store else store ++ [l]

/-- Insert one link per accumulated pair, in order. -/
def insertAllLinks (mk : Nat × PairData → TemporalLink)
    (pds : List (Nat × PairData)) (store : List TemporalLink) : List TemporalLink :=
  pds.foldl (fun st p => insertLinkOrIgnore (mk p) st) store

/-- jobs.py `run_temporal_linking` insertion phase (lines 530-543):
one INSERT OR IGNORE per accumulated pair; `ids i` models the
`uuid.uuid4()` drawn for the i-th pair and `now` the cycle
timestamp. -/
def runTemporalLinking (rows : List EnrichedRow) (ids : Nat → String) (now : String)
    (store : List TemporalLink) : List TemporalLink :=
  insertAllLinks (fun p => mkTemporalLink (ids p.1) now p.2)
    (buildPairData rows).enum store

/-- The (source, target) pairs stored. -/
def pairKeys (store : List TemporalLink) : List (String × String) :=
  store.map (fun l => (l.source_item_id, l.target_item_id))

theorem hasPair_eq_true_iff (store : List TemporalLink) (s t : String) :
    hasPair store s t = true ↔ (s, t) ∈ pairKeys store := by
  unfold hasPair pairKeys
  rw [List.any_eq_true]
  constructor
  · rintro ⟨l, hl, hand⟩
    rw [Bool.and_eq_true, beq_iff_eq, beq_iff_eq] at hand
    exact List.mem_map.mpr ⟨l, hl, by rw [hand.1, hand.2]⟩
  · intro hmem
    obtain ⟨l, hl, heq⟩ := List.mem_map.mp hmem
    refine ⟨l, hl, ?_⟩
    rw [Bool.and_eq_true, beq_iff_eq, beq_iff_eq]
    exact ⟨congrArg Prod.fst heq, congrArg Prod.snd heq⟩

theorem pairKeys_nodup_insertLinkOrIgnore (l : TemporalLink)
    (store : List TemporalLink) (h : (pairKeys store).Nodup) :
    (pairKeys (insertLinkOrIgnore l store)).Nodup := by
  unfold insertLinkOrIgnore
  by_cases hc : hasPair store l.source_item_id l.target_item_id = true
  · rw [if_pos hc]
    exact h
  · rw [if_neg hc]
    have hforall : ∀ x ∈ store, x.source_item_id = l.source_item_id →
        ¬ x.target_item_id = l.target_item_id := by
      intro x hx h1 h2
      exact hc ((hasPair_eq_true_iff store _ _).mpr
        (List.mem_map.mpr ⟨x, hx, by rw [h1, h2]⟩))
    simpa [pairKeys, List.nodup_append] using ⟨h, hforall⟩

theorem hasPair_insertLinkOrIgnore_mono (l : TemporalLink)
    (store : List TemporalLink) (s t : String)
    (h : hasPair store s t = true) :
    hasPair (insertLinkOrIgnore l store) s t = true := by
  unfold insertLinkOrIgnore
  by_cases hc : hasPair store l.source_item_id l.target_item_id = true
  · rwa [if_pos hc]
  · rw [if_neg hc]
    unfold hasPair at h ⊢
    rw [List.any_append, h]
    rfl

theorem hasPair_insertLinkOrIgnore_self (l : TemporalLink)
    (store : List TemporalLink) :
    hasPair (insertLinkOrIgnore l store) l.source_item_id l.target_item_id = true := by
  unfold insertLinkOrIgnore
  by_cases hc : hasPair store l.source_item_id l.target_item_id = true
  · rwa [if_pos hc]
  · rw [if_neg hc]
    unfold hasPair
    rw [List.any_append]
    simp

theorem hasPair_insertAllLinks_mono (mk : Nat × PairData → TemporalLink)
    (pds : List (Nat × PairData)) (store : List TemporalLink) (s t : String)
    (h : hasPair store s t = true) :
    hasPair (insertAllLinks mk pds store) s t = true := by
  induction pds generalizing store with
  | nil => exact h
  | cons p rest ih =>
    exact ih _ (hasPair_insertLinkOrIgnore_mono (mk p) store s t h)

theorem hasPair_insertAllLinks_of_mem (mk : Nat × PairData → TemporalLink) :
    ∀ (pds : List (Nat × PairData)) (store : List TemporalLink)
      (p : Nat × PairData), p ∈ pds →
      hasPair (insertAllLinks mk pds store)
        (mk p).source_item_id (mk p).target_item_id = true := by
  intro pds
  induction pds with
  | nil => intro store p hp; cases hp
  | cons q rest ih =>
    intro store p hp
    rcases List.mem_cons.mp hp with rfl | hp'
    · exact hasPair_insertAllLinks_mono mk rest _ _ _
        (hasPair_insertLinkOrIgnore_self (mk p) store)
    · exact ih _ p hp'

theorem insertAllLinks_of_all_present (mk : Nat × PairData → TemporalLink)
    (pds : List (Nat × PairData)) (store : List TemporalLink)
    (h : ∀ p ∈ pds, hasPair store (mk p).source_item_id (mk p).target_item_id = true) :
    insertAllLinks mk pds store = store := by
  induction pds generalizing store with
  | nil => rfl
  | cons q rest ih =>
    have hq := h q (List.mem_cons_self q rest)
    have hstep : insertLinkOrIgnore (mk q) store = store := by
      unfold insertLinkOrIgnore
      rw [if_pos hq]
    show insertAllLinks mk rest (insertLinkOrIgnore (mk q) store) = store
    rw [hstep]
    exact ih store (fun p hp => h p (List.mem_cons_of_mem q hp))

theorem pairKeys_nodup_insertAllLinks (mk : Nat × PairData → TemporalLink)
    (pds : List (Nat × PairData)) (store : List TemporalLink)
    (h : (pairKeys store).Nodup) :
    (pairKeys (insertAllLinks mk pds store)).Nodup := by
  induction pds generalizing store with
  | nil => exact h
  | cons q rest ih =>
    exact ih _ (pairKeys_nodup_insertLinkOrIgnore (mk q) store h)

/-! ## Claim C7 -/

/-- C7: inserting a link whose (source, target) pair is already stored
is a no-op, not an error; the builder preserves uniqueness of the
(source, target) pair in the store; and running the builder twice over
the same enriched rows — with fresh uuids and a fresh timestamp the
second time — leaves the store exactly as after the first run, so no
duplicate pairs ever arise. -/
theorem C7_temporal_link_idempotent :
    (∀ (l : TemporalLink) (store : List TemporalLink),
      hasPair store l.source_item_id l.target_item_id = true →
      insertLinkOrIgnore l store = store) ∧
    (∀ (rows : List EnrichedRow) (ids : Nat → String) (now : String)
        (store : List TemporalLink), (pairKeys store).Nodup →
      (pairKeys (runTemporalLinking rows ids now store)).Nodup) ∧
    (∀ (rows : List EnrichedRow) (ids1 ids2 : Nat → String) (now1 now2 : String)
        (store : List TemporalLink),
      runTemporalLinking rows ids2 now2 (runTemporalLinking rows ids1 now1 store) =
        runTemporalLinking rows ids1 now1 store) := by
  refine ⟨fun l store h => ?_, fun rows ids now store h => ?_,
    fun rows ids1 ids2 now1 now2 store => ?_⟩
  · unfold insertLinkOrIgnore
    rw [if_pos h]
  · exact pairKeys_nodup_insertAllLinks _ _ store h
  · unfold runTemporalLinking
    apply insertAllLinks_of_all_present
    intro p hp
    exact hasPair_insertAllLinks_of_mem
      (fun q => mkTemporalLink (ids1 q.1) now1 q.2) (buildPairData rows).enum store p hp

/-- C7 witness: two items sharing a ticker; the pair inserted by the
first run is ignored by a second run with different uuids, and
uniqueness of the stored pairs is preserved from an empty store. -/
theorem C7_witness :
    hasPair [mkTemporalLink "u1" "t0" ⟨"i2", "i1", ["ACME"], "reinforcing", "reinforcing"⟩]
      "i2" "i1" = true ∧
    insertLinkOrIgnore
        (mkTemporalLink "u9" "t9" ⟨"i2", "i1", ["ACME"], "reinforcing", "reinforcing"⟩)
        [mkTemporalLink "u1" "t0" ⟨"i2", "i1", ["ACME"], "reinforcing", "reinforcing"⟩] =
      [mkTemporalLink "u1" "t0" ⟨"i2", "i1", ["ACME"], "reinforcing", "reinforcing"⟩] ∧
    (pairKeys ([] : List TemporalLink)).Nodup ∧
    (pairKeys (runTemporalLinking
      [⟨"i1", "t1", "reinforcing", "ACME"⟩, ⟨"i2", "t2", "reinforcing", "ACME"⟩]
      (fun i => "u" ++ toString i) "t3" [])).Nodup ∧
    runTemporalLinking
        [⟨"i1", "t1", "reinforcing", "ACME"⟩, ⟨"i2", "t2", "reinforcing", "ACME"⟩]
        (fun i => "w" ++ toString i) "t4"
        (runTemporalLinking
          [⟨"i1", "t1", "reinforcing", "ACME"⟩, ⟨"i2", "t2", "reinforcing", "ACME"⟩]
          (fun i => "u" ++ toString i) "t3" []) =
      runTemporalLinking
        [⟨"i1", "t1", "reinforcing", "ACME"⟩, ⟨"i2", "t2", "reinforcing", "ACME"⟩]
        (fun i => "u" ++ toString i) "t3" [] := by
  refine ⟨by decide, ?_, by decide, ?_, ?_⟩
  · exact C7_temporal_link_idempotent.1
      (mkTemporalLink "u9" "t9" ⟨"i2", "i1", ["ACME"], "reinforcing", "reinforcing"⟩)
      [mkTemporalLink "u1" "t0" ⟨"i2", "i1", ["ACME"], "reinforcing", "reinforcing"⟩]
      (by decide)
  · exact C7_temporal_link_idempotent.2.1
      [⟨"i1", "t1", "reinforcing", "ACME"⟩, ⟨"i2", "t2", "reinforcing", "ACME"⟩]
      (fun i => "u" ++ toString i) "t3" [] (by decide)
  · exact C7_temporal_link_idempotent.2.2
      [⟨"i1", "t1", "reinforcing", "ACME"⟩, ⟨"i2", "t2", "reinforcing", "ACME"⟩]
      (fun i => "u" ++ toString i) (fun i => "w" ++ toString i) "t3" "t4" []

/-! ## Cluster synthesis (jobs.py run_cluster_synthesis) -/

/-- One row of the cluster_syntheses table; `item_ids` holds the sorted
member ids the code stores as a JSON array (two JSON dumps of sorted
string lists are equal exactly when the lists are). -/
structure SynthRow where
  id : String
  ticker : String
  item_ids : List String
  item_count : Nat
  synthesis : String
  synthesized_at : String
  synthesis_version : String
deriving DecidableEq

/-- Fold one (item_id, ticker) query row into the `ticker_items` dict:
first-appearance key order, and an item id is appended only if not
already present for that ticker. -/
def addClusterRow (acc : List (String × List String)) (r : String × String) :
    List (String × List String) :=
  if acc.any (fun p => p.1 == r.2) then
    acc.map (fun p => if p.1 = r.2
      then (p.1, if p.2.contains r.1 then p.2 else p.2 ++ [r.1]) else p)
  else acc ++ [(r.2, [r.1])]

/-- run_cluster_synthesis grouping (lines 586-599): per-ticker
deduplicated item ids, then sorted per ticker for stable comparison. -/
def computeClusterIds (rows : List (String × String)) : List (String × List String) :=
  (rows.foldl addClusterRow []).map (fun p => (p.1, sortByLe strLeB p.2))

/-- The outcome of one `synthesize_cluster` call. -/
inductive SynthOutcome where
  | ok (synthesis : String)
  | err (code message : String)
  | exn
deriving DecidableEq

/-- The member-id list of the stored synthesis for a ticker, if any —
the `existing` snapshot dict loaded before the loop. -/
def lookupSynthIds (tbl : List SynthRow) (ticker : String) : Option (List String) :=
  (tbl.find? (fun r => r.ticker == ticker)).map (fun r => r.item_ids)

/-- The stored row for a ticker. -/
def lookupSynthRow (tbl : List SynthRow) (ticker : String) : Option SynthRow :=
  tbl.find? (fun r => r.ticker == ticker)

/-- `INSERT .. ON CONFLICT(ticker) DO UPDATE`: update every field but
the id when the ticker exists, else insert with a fresh uuid. -/
def upsertSynth (freshId ticker : String) (ids : List String)
    (synthesis now version : String) (tbl : List SynthRow) : List SynthRow :=
  if tbl.any (fun r => r.ticker == ticker) then
    tbl.map (fun r => if r.ticker = ticker
      then { r with item_ids := ids, item_count := ids.length, synthesis := synthesis,
                    synthesized_at := now, synthesis_version := version }
      else r)
  else tbl ++ [⟨freshId, ticker, ids, ids.length, synthesis, now, version⟩]

/-- What one run_cluster_synthesis invocation produces.  `called` and
`skippedTickers` are ghost instrumentation recording which tickers
reached `synthesize_cluster` and which took the unchanged-skip branch;
the code's integer counters appear as `synthesized`, `skipped`,
`errors`, with `skipped = skippedTickers.length`. -/
structure ClusterRunResult where
  table : List SynthRow
  called : List String
  skippedTickers : List String
  synthesized : Nat
  skipped : Nat
  errors : Nat
deriving DecidableEq

/-- The per-ticker loop of run_cluster_synthesis (lines 603-621 and
following): groups of fewer than two items are passed over; a group
whose sorted id list equals the snapshot entry is counted skipped with
no service call and no write; otherwise the service is called — an
exception counts an error and continues, a typed error counts an error
and halts the batch when its code is "api_error", and a result upserts
the row keyed by ticker. -/
def clusterLoop (synth : String → SynthOutcome) (idGen : String → String)
    (now version : String) (snapshot : List SynthRow) :
    List (String × List String) → List SynthRow → ClusterRunResult
  | [], table => ⟨table, [], [], 0, 0, 0⟩
  | (ticker, ids) :: rest, table =>
    if ids.length < 2 then
      clusterLoop synth idGen now version snapshot rest table
    else if lookupSynthIds snapshot ticker = some ids then
      let r := clusterLoop synth idGen now version snapshot rest table
      ⟨r.table, r.called, ticker :: r.skippedTickers,
        r.synthesized, r.skipped + 1, r.errors⟩
    else
      match synth ticker with
      | .exn =>
        let r := clusterLoop synth idGen now version snapshot rest table
        ⟨r.table, ticker :: r.called, r.skippedTickers,
          r.synthesized, r.skipped, r.errors + 1⟩
      | .err code _ =>
        if code = "api_error" then ⟨table, [ticker], [], 0, 0, 1⟩
        else
          let r := clusterLoop synth idGen now version snapshot rest table
          ⟨r.table, ticker :: r.called, r.skippedTickers,
            r.synthesized, r.skipped, r.errors + 1⟩
      | .ok payload =>
        let r := clusterLoop synth idGen now version snapshot rest
          (upsertSynth (idGen ticker) ticker ids payload now version table)
        ⟨r.table, ticker :: r.called, r.skippedTickers,
          r.synthesized + 1, r.skipped, r.errors⟩

/-- jobs.py `run_cluster_synthesis`: group the query rows, snapshot the
stored syntheses, then run the per-ticker loop against that fixed
snapshot. -/
def run_cluster_synthesis (synth : String → SynthOutcome) (idGen : String → String)
    (now version : String) (rows : List (String × String))
    (table : List SynthRow) : ClusterRunResult :=
  clusterLoop synth idGen now version table (computeClusterIds rows) table

/-- Whether processing a group halts the batch: it needs a service call
(at least two members, changed id set) and the call fails with the
transient "api_error" code. -/
def haltsCluster (snapshot : List SynthRow) (synth : String → SynthOutcome)
    (p : String × List String) : Bool :=
  if p.2.length < 2 then false
  else if lookupSynthIds snapshot p.1 = some p.2 then false
  else match synth p.1 with
    | .err code _ => code == "api_error"
    | _ => false

theorem lookupSynthRow_upsert_other (freshId t : String) (ids : List String)
    (syn now ver : String) (tbl : List SynthRow) (ticker : String) (hne : ticker ≠ t) :
    lookupSynthRow (upsertSynth freshId t ids syn now ver tbl) ticker =
      lookupSynthRow tbl ticker := by
  unfold upsertSynth lookupSynthRow
  by_cases hany : tbl.any (fun r => r.ticker == t) = true
  · rw [if_pos hany, List.find?_map]
    have hpf : ((fun r : SynthRow => r.ticker == ticker) ∘
        (fun r => if r.ticker = t
          then { r with item_ids := ids, item_count := ids.length, synthesis := syn,
                        synthesized_at := now, synthesis_version := ver }
          else r)) = (fun r : SynthRow => r.ticker == ticker) := by
      funext r
      by_cases hr : r.ticker = t <;> simp [hr]
    rw [hpf]
    rcases hs : List.find? (fun r => r.ticker == ticker) tbl with - | r0
    · simp [hs]
    · have hr0 : r0.ticker = ticker := by simpa using List.find?_some hs
      have hr0t : ¬ r0.ticker = t := fun h => hne (hr0 ▸ h)
      simp [hs, hr0t]
  · rw [if_neg hany, List.find?_append]
    have hsingle : List.find? (fun r => r.ticker == ticker)
        [(⟨freshId, t, ids, ids.length, syn, now, ver⟩ : SynthRow)] = none := by
      simp [Ne.symm hne]
    simp [hsingle]

theorem clusterLoop_untouched (synth : String → SynthOutcome) (idGen : String → String)
    (now version : String) (snapshot : List SynthRow) :
    ∀ (grouped : List (String × List String)) (table : List SynthRow) (ticker : String),
      ticker ∉ grouped.map Prod.fst →
      ticker ∉ (clusterLoop synth idGen now version snapshot grouped table).called ∧
      lookupSynthRow (clusterLoop synth idGen now version snapshot grouped table).table
          ticker =
        lookupSynthRow table ticker := by
  intro grouped
  induction grouped with
  | nil =>
    intro table ticker _
    exact ⟨List.not_mem_nil ticker, rfl⟩
  | cons g rest ih =>
    intro table ticker h
    obtain ⟨t, tids⟩ := g
    rw [List.map_cons, List.mem_cons] at h
    push_neg at h
    obtain ⟨hne, hrest⟩ := h
    simp only [clusterLoop]
    by_cases h1 : tids.length < 2
    · rw [if_pos h1]
      exact ih table ticker hrest
    · rw [if_neg h1]
      by_cases h2 : lookupSynthIds snapshot t = some tids
      · rw [if_pos h2]
        obtain ⟨hc, ht⟩ := ih table ticker hrest
        exact ⟨hc, ht⟩
      · rw [if_neg h2]
        cases hs : synth t with
        | ok syn =>
          dsimp only
          obtain ⟨hc, ht⟩ := ih
            (upsertSynth (idGen t) t tids syn now version table) ticker hrest
          refine ⟨?_, ?_⟩
          · simp only [List.mem_cons]
            push_neg
            exact ⟨hne, hc⟩
          · rw [ht]
            exact lookupSynthRow_upsert_other (idGen t) t tids syn now version table
              ticker hne
        | err code msg =>
          dsimp only
          by_cases hcode : code = "api_error"
          · rw [if_pos hcode]
            refine ⟨?_, rfl⟩
            simp [hne]
          · rw [if_neg hcode]
            obtain ⟨hc, ht⟩ := ih table ticker hrest
            refine ⟨?_, ht⟩
            simp only [List.mem_cons]
            push_neg
            exact ⟨hne, hc⟩
        | exn =>
          dsimp only
          obtain ⟨hc, ht⟩ := ih table ticker hrest
          refine ⟨?_, ht⟩
          simp only [List.mem_cons]
          push_neg
          exact ⟨hne, hc⟩

theorem keys_addClusterRow (acc : List (String × List String)) (r : String × String) :
    (addClusterRow acc r).map Prod.fst =
      if acc.any (fun p => p.1 == r.2) then acc.map Prod.fst
      else acc.map Prod.fst ++ [r.2] := by
  unfold addClusterRow
  by_cases h : acc.any (fun p => p.1 == r.2) = true
  · rw [if_pos h, if_pos h, List.map_map]
    congr 1
    funext p
    by_cases hp : p.1 = r.2 <;> simp [hp]
  · rw [if_neg h, if_neg h]
    simp

theorem keys_nodup_foldl_addClusterRow (rows : List (String × String)) :
    ∀ acc : List (String × List String), (acc.map Prod.fst).Nodup →
      ((rows.foldl addClusterRow acc).map Prod.fst).Nodup := by
  induction rows with
  | nil => intro acc h; exact h
  | cons r rest ih =>
    intro acc h
    apply ih
    rw [keys_addClusterRow]
    by_cases hany : acc.any (fun p => p.1 == r.2) = true
    · rw [if_pos hany]
      exact h
    · rw [if_neg hany]
      have hforall : ∀ (x : List String), (r.2, x) ∉ acc := by
        intro x hx
        exact hany (List.any_eq_true.mpr ⟨(r.2, x), hx, by simp⟩)
      simpa [List.nodup_append] using ⟨h, hforall⟩

theorem keys_nodup_computeClusterIds (rows : List (String × String)) :
    ((computeClusterIds rows).map Prod.fst).Nodup := by
  unfold computeClusterIds
  rw [List.map_map]
  have hfst : (Prod.fst ∘ fun p : String × List String =>
      (p.1, sortByLe strLeB p.2)) = Prod.fst := by
    funext p
    rfl
  rw [hfst]
  exact keys_nodup_foldl_addClusterRow rows [] (by simp)

theorem clusterLoop_unchanged_ticker (synth : String → SynthOutcome)
    (idGen : String → String) (now version : String) (snapshot : List SynthRow) :
    ∀ (grouped : List (String × List String)) (table : List SynthRow)
      (ticker : String) (ids : List String),
      (grouped.map Prod.fst).Nodup →
      (ticker, ids) ∈ grouped →
      lookupSynthIds snapshot ticker = some ids →
      ticker ∉ (clusterLoop synth idGen now version snapshot grouped table).called ∧
      lookupSynthRow (clusterLoop synth idGen now version snapshot grouped table).table
          ticker =
        lookupSynthRow table ticker := by
  intro grouped
  induction grouped with
  | nil =>
    intro table ticker ids _ hm _
    cases hm
  | cons g rest ih =>
    intro table ticker ids hnd hm hsnap
    obtain ⟨t, tids⟩ := g
    rw [List.map_cons] at hnd
    have hnotin : (t, tids).1 ∉ rest.map Prod.fst := (List.nodup_cons.mp hnd).1
    have hnd1 : (rest.map Prod.fst).Nodup := (List.nodup_cons.mp hnd).2
    rcases List.mem_cons.mp hm with heq | hm'
    · have ht' : ticker = t := congrArg Prod.fst heq
      have hi' : ids = tids := congrArg Prod.snd heq
      subst ht'
      subst hi'
      simp only [clusterLoop]
      by_cases h1 : ids.length < 2
      · rw [if_pos h1]
        exact clusterLoop_untouched synth idGen now version snapshot rest table
          ticker hnotin
      · rw [if_neg h1, if_pos hsnap]
        obtain ⟨hc, ht⟩ :=
          clusterLoop_untouched synth idGen now version snapshot rest table
            ticker hnotin
        exact ⟨hc, ht⟩
    · have hne : ticker ≠ t := by
        intro he
        exact hnotin (he ▸ List.mem_map.mpr ⟨(ticker, ids), hm', rfl⟩)
      simp only [clusterLoop]
      by_cases h1 : tids.length < 2
      · rw [if_pos h1]
        exact ih table ticker ids hnd1 hm' hsnap
      · rw [if_neg h1]
        by_cases h2 : lookupSynthIds snapshot t = some tids
        · rw [if_pos h2]
          exact ih table ticker ids hnd1 hm' hsnap
        · rw [if_neg h2]
          cases hs : synth t with
          | ok syn =>
            dsimp only
            obtain ⟨hc, ht⟩ := ih (upsertSynth (idGen t) t tids syn now version table)
              ticker ids hnd1 hm' hsnap
            refine ⟨?_, ?_⟩
            · simp only [List.mem_cons]
              push_neg
              exact ⟨hne, hc⟩
            · rw [ht]
              exact lookupSynthRow_upsert_other (idGen t) t tids syn now version table
                ticker hne
          | err code msg =>
            dsimp only
            by_cases hcode : code = "api_error"
            · rw [if_pos hcode]
              refine ⟨?_, rfl⟩
              simp [hne]
            · rw [if_neg hcode]
              obtain ⟨hc, ht⟩ := ih table ticker ids hnd1 hm' hsnap
              refine ⟨?_, ht⟩
              simp only [List.mem_cons]
              push_neg
              exact ⟨hne, hc⟩
          | exn =>
            dsimp only
            obtain ⟨hc, ht⟩ := ih table ticker ids hnd1 hm' hsnap
            refine ⟨?_, ht⟩
            simp only [List.mem_cons]
            push_neg
            exact ⟨hne, hc⟩

theorem clusterLoop_skipped_when_reached (synth : String → SynthOutcome)
    (idGen : String → String) (now version : String) (snapshot : List SynthRow) :
    ∀ (pre : List (String × List String)) (ticker : String) (ids : List String)
      (post : List (String × List String)) (table : List SynthRow),
      (∀ p ∈ pre, haltsCluster snapshot synth p = false) →
      lookupSynthIds snapshot ticker = some ids → 2 ≤ ids.length →
      ticker ∈ (clusterLoop synth idGen now version snapshot
        (pre ++ (ticker, ids) :: post) table).skippedTickers := by
  intro pre
  induction pre with
  | nil =>
    intro ticker ids post table _ hsnap hlen
    simp only [List.nil_append, clusterLoop]
    rw [if_neg (Nat.not_lt.mpr hlen), if_pos hsnap]
    exact List.mem_cons_self _ _
  | cons q pre' ih =>
    intro ticker ids post table hpre hsnap hlen
    obtain ⟨t, tids⟩ := q
    have hq := hpre (t, tids) (List.mem_cons_self _ _)
    have hpre' : ∀ p ∈ pre', haltsCluster snapshot synth p = false :=
      fun p hp => hpre p (List.mem_cons_of_mem _ hp)
    simp only [List.cons_append, clusterLoop]
    by_cases h1 : tids.length < 2
    · rw [if_pos h1]
      exact ih ticker ids post table hpre' hsnap hlen
    · rw [if_neg h1]
      by_cases h2 : lookupSynthIds snapshot t = some tids
      · rw [if_pos h2]
        exact List.mem_cons_of_mem _ (ih ticker ids post table hpre' hsnap hlen)
      · rw [if_neg h2]
        cases hs : synth t with
        | ok syn =>
          dsimp only
          exact ih ticker ids post _ hpre' hsnap hlen
        | err code msg =>
          dsimp only
          have hcode : ¬ code = "api_error" := by
            unfold haltsCluster at hq
            rw [if_neg h1, if_neg h2, hs] at hq
            simpa using hq
          rw [if_neg hcode]
          exact ih ticker ids post table hpre' hsnap hlen
        | exn =>
          dsimp only
          exact ih ticker ids post table hpre' hsnap hlen

theorem clusterLoop_skipped_count (synth : String → SynthOutcome)
    (idGen : String → String) (now version : String) (snapshot : List SynthRow) :
    ∀ (grouped : List (String × List String)) (table : List SynthRow),
      (clusterLoop synth idGen now version snapshot grouped table).skipped =
        (clusterLoop synth idGen now version snapshot grouped
          table).skippedTickers.length := by
  intro grouped
  induction grouped with
  | nil =>
    intro table
    rfl
  | cons g rest ih =>
    intro table
    obtain ⟨t, tids⟩ := g
    simp only [clusterLoop]
    by_cases h1 : tids.length < 2
    · rw [if_pos h1]
      exact ih table
    · rw [if_neg h1]
      by_cases h2 : lookupSynthIds snapshot t = some tids
      · rw [if_pos h2]
        dsimp only
        rw [ih table]
        rfl
      · rw [if_neg h2]
        cases hs : synth t with
        | ok syn =>
          dsimp only
          exact ih _
        | err code msg =>
          dsimp only
          by_cases hcode : code = "api_error"
          · rw [if_pos hcode]
            rfl
          · rw [if_neg hcode]
            exact ih table
        | exn =>
          dsimp only
          exact ih table

/-! ## Claim C8 -/

/-- The C8 failing run: T1 first in iteration order (changed member
set, service returns the transient api_error), T2 second (member set
unchanged since its stored synthesis). -/
def c8rows : List (String × String) :=
  [("i1", "T1"), ("i3", "T1"), ("i4", "T2"), ("i5", "T2")]

/-- Stored syntheses: T1 with an outdated member set, T2 current. -/
def c8table : List SynthRow :=
  [⟨"s1", "T1", ["i1", "i2"], 2, "syn1", "t0", "v"⟩,
   ⟨"s2", "T2", ["i4", "i5"], 2, "syn2", "t0", "v"⟩]

/-- Synthesis service outcomes for the C8 counterexample. -/
def c8synth : String → SynthOutcome := fun t =>
  if t = "T1" then .err "api_error" "down" else .ok "new"

/-- The C8 counterexample run. -/
def c8run : ClusterRunResult :=
  run_cluster_synthesis c8synth (fun t => "u-" ++ t) "t1" "v" c8rows c8table

/-- C8 (counterexample): T2's sorted member set is unchanged since its
stored synthesis, and the run issues no call for T2 and leaves its row
unchanged — but because T1 fails earlier with the transient api_error
code, the batch halts and T2 is NOT counted as skipped (skipped = 0),
contradicting the claim's "counting it as skipped". -/
theorem C8_counterexample :
    computeClusterIds c8rows = [("T1", ["i1", "i3"]), ("T2", ["i4", "i5"])] ∧
    lookupSynthIds c8table "T2" = some ["i4", "i5"] ∧
    c8run.called = ["T1"] ∧
    c8run.table = c8table ∧
    c8run.skipped = 0 ∧
    c8run.skippedTickers = [] := by decide

/-- C8 (amended): a grouping value whose sorted member-id set equals
its stored synthesis entry always gets zero external calls and keeps
its stored row unchanged; it is additionally counted as skipped
provided the loop reaches it, i.e. no earlier group's call fails with
the transient "api_error" code (which halts the batch); and the
skipped counter counts exactly the tickers that took the skip
branch. -/
theorem C8_cluster_synthesis_skip :
    (∀ (synth : String → SynthOutcome) (idGen : String → String)
        (now version : String) (rows : List (String × String))
        (table : List SynthRow) (ticker : String) (ids : List String),
      (ticker, ids) ∈ computeClusterIds rows →
      lookupSynthIds table ticker = some ids →
      ticker ∉ (run_cluster_synthesis synth idGen now version rows table).called ∧
      lookupSynthRow (run_cluster_synthesis synth idGen now version rows table).table
          ticker =
        lookupSynthRow table ticker) ∧
    (∀ (synth : String → SynthOutcome) (idGen : String → String)
        (now version : String) (rows : List (String × String))
        (table : List SynthRow) (ticker : String) (ids : List String)
        (pre post : List (String × List String)),
      computeClusterIds rows = pre ++ (ticker, ids) :: post →
      (∀ p ∈ pre, haltsCluster table synth p = false) →
      lookupSynthIds table ticker = some ids → 2 ≤ ids.length →
      ticker ∈ (run_cluster_synthesis synth idGen now version rows
        table).skippedTickers) ∧
    (∀ (synth : String → SynthOutcome) (idGen : String → String)
        (now version : String) (snapshot : List SynthRow)
        (grouped : List (String × List String)) (table : List SynthRow),
      (clusterLoop synth idGen now version snapshot grouped table).skipped =
        (clusterLoop synth idGen now version snapshot grouped
          table).skippedTickers.length) := by
  refine ⟨?_, ?_, ?_⟩
  · intro synth idGen now version rows table ticker ids hm hsnap
    exact clusterLoop_unchanged_ticker synth idGen now version table
      (computeClusterIds rows) table ticker ids
      (keys_nodup_computeClusterIds rows) hm hsnap
  · intro synth idGen now version rows table ticker ids pre post hdec hpre hsnap hlen
    unfold run_cluster_synthesis
    rw [hdec]
    exact clusterLoop_skipped_when_reached synth idGen now version table
      pre ticker ids post table hpre hsnap hlen
  · intro synth idGen now version snapshot grouped table
    exact clusterLoop_skipped_count synth idGen now version snapshot grouped table

/-- C8 witness: a single unchanged ticker — zero calls, unchanged row,
counted as skipped. -/
theorem C8_witness :
    ("T2", ["i4", "i5"]) ∈ computeClusterIds [("i4", "T2"), ("i5", "T2")] ∧
    lookupSynthIds [(⟨"s2", "T2", ["i4", "i5"], 2, "syn2", "t0", "v"⟩ : SynthRow)] "T2" =
      some ["i4", "i5"] ∧
    ("T2" ∉ (run_cluster_synthesis c8synth (fun t => "u-" ++ t) "t1" "v"
        [("i4", "T2"), ("i5", "T2")]
        [⟨"s2", "T2", ["i4", "i5"], 2, "syn2", "t0", "v"⟩]).called ∧
      lookupSynthRow (run_cluster_synthesis c8synth (fun t => "u-" ++ t) "t1" "v"
          [("i4", "T2"), ("i5", "T2")]
          [⟨"s2", "T2", ["i4", "i5"], 2, "syn2", "t0", "v"⟩]).table "T2" =
        lookupSynthRow [(⟨"s2", "T2", ["i4", "i5"], 2, "syn2", "t0", "v"⟩ : SynthRow)]
          "T2") ∧
    "T2" ∈ (run_cluster_synthesis c8synth (fun t => "u-" ++ t) "t1" "v"
        [("i4", "T2"), ("i5", "T2")]
        [⟨"s2", "T2", ["i4", "i5"], 2, "syn2", "t0", "v"⟩]).skippedTickers :=
  ⟨by decide, by decide,
    C8_cluster_synthesis_skip.1 c8synth (fun t => "u-" ++ t) "t1" "v"
      [("i4", "T2"), ("i5", "T2")]
      [⟨"s2", "T2", ["i4", "i5"], 2, "syn2", "t0", "v"⟩] "T2" ["i4", "i5"]
      (by decide) (by decide),
    C8_cluster_synthesis_skip.2.1 c8synth (fun t => "u-" ++ t) "t1" "v"
      [("i4", "T2"), ("i5", "T2")]
      [⟨"s2", "T2", ["i4", "i5"], 2, "syn2", "t0", "v"⟩] "T2" ["i4", "i5"]
      [] [] (by decide) (by simp) (by decide) (by decide)⟩

end Worldlines
